import Mathlib

/-!
GP_FinalProj: Player and Tutorial core

A shallow embedding of `Player.cpp` and `Tutorial.cpp`.

Conventions of the embedding:

* C++ `int` values are `Int`; the coordinates and sizes the game handles are a
  few thousand at most, far from the 32-bit limits.
* C++ `float` values are the rationals an IEEE 754 binary32 can hold.  The
  result of each `float` operation is the exact result rounded to the nearest
  such value, ties to even (`f32`); a literal such as `0.1f` is `f32 (1 / 10)`.
  Overflow to infinity and NaN are not modelled.  A `float` stored into an
  `int` field is truncated toward zero (`truncToInt`), as the C++ conversion
  does; an `int` coordinate converts to `float` without rounding, being below
  2^24 in absolute value.
* Process-wide variables (`g_move_left`, `g_kill_count`, ...) are the fields of
  `Globals`, passed in and returned explicitly.
* What the sources use but do not define (`WINDOW_WIDTH`, `WINDOW_HEIGHT`,
  `PHASE_Entrance`, `Monster::IsDead`, the initial health the monster
  constructors give) is a field of `Env`.
* The random draws `disX(gen)`, `disY(gen)` are arguments of the function that
  makes them.
* `std::vector<Monster*>` is a `List Monster`.  Every entry points to its own
  heap object (each comes from its own `new`), so an entry is identified by its
  index and a pointer into the vector is an index (`nullptr` is `none`).
-/

namespace GPFinal

/-! ## Data model -/

/-- The animation states of the player (`enum class PlayerState`). -/
inductive PlayerState where
  | Idle
  | Move
  | Parry
  | Damage
  | Death
  deriving DecidableEq, Repr

/-- An animation: texture handles in order, and the duration of one frame. -/
structure Animation where
  frames : List Nat
  frame_duration : ℚ
  deriving Repr

/-- A pair of `float` components (the type of `velocity_`). -/
structure Vector2 where
  x : ℚ
  y : ℚ
  deriving DecidableEq, Repr

/-- The rectangle of SDL: four `int` fields. -/
structure SDL_Rect where
  x : Int
  y : Int
  w : Int
  h : Int
  deriving DecidableEq, Repr

/-- The concrete subclass of a monster object. -/
inductive MonsterKind where
  | Moving
  | Ranged
  | Charging
  deriving DecidableEq, Repr

/-- Modelled from the spec: the `Monster` class is declared outside the sources
at hand; the spec lists position accessors, health get/set and an is-dead
predicate.  A monster is its subclass tag, its position and its health. -/
structure Monster where
  kind : MonsterKind
  x : Int
  y : Int
  health : Int
  deriving DecidableEq, Repr

/-- The accessor `Monster::getX`. -/
def Monster.getX (m : Monster) : Int := m.x

/-- The accessor `Monster::getY`. -/
def Monster.getY (m : Monster) : Int := m.y

/-- The accessor `Monster::GetHealth`. -/
def Monster.GetHealth (m : Monster) : Int := m.health

/-- The mutator `Monster::SetHealth`. -/
def Monster.SetHealth (m : Monster) (v : Int) : Monster := { m with health := v }

/-- The process-wide variables the player and the tutorial scene read and write. -/
structure Globals where
  g_move_left : Bool
  g_move_right : Bool
  g_move_up : Bool
  g_move_down : Bool
  g_kill_count : Int
  g_player_health : Int
  g_current_game_phase : Int
  deriving DecidableEq, Repr

/-- What the sources refer to and do not define: the window constants of
`globals.h`, the value of `PHASE_Entrance`, the predicate `Monster::IsDead` and
the health a freshly constructed monster of each subclass has. -/
structure Env where
  WINDOW_WIDTH : Int
  WINDOW_HEIGHT : Int
  PHASE_Entrance : Int
  IsDead : Monster → Bool
  movingHealth : Int
  rangedHealth : Int
  chargingHealth : Int

/-- The constructor call `new MovingMonster(x, y)`. -/
def MovingMonster (env : Env) (x y : Int) : Monster :=
  { kind := MonsterKind.Moving, x := x, y := y, health := env.movingHealth }

/-- The constructor call `new RangedMonster(x, y)`. -/
def RangedMonster (env : Env) (x y : Int) : Monster :=
  { kind := MonsterKind.Ranged, x := x, y := y, health := env.rangedHealth }

/-- The constructor call `new ChargingMonster(x, y)`. -/
def ChargingMonster (env : Env) (x y : Int) : Monster :=
  { kind := MonsterKind.Charging, x := x, y := y, health := env.chargingHealth }

/-- The data members of `Player`. -/
structure Player where
  is_parrying_ : Bool
  move_speed_ : ℚ
  parry_cooldown_ : ℚ
  parry_duration_ : ℚ
  parry_timer_ : ℚ
  direction_ : Int
  state_ : PlayerState
  prev_state_ : PlayerState
  current_frame_ : Nat
  frame_time_ : ℚ
  flip_ : Bool
  velocity_ : Vector2
  animations_ : PlayerState → Animation
  rect_ : SDL_Rect

/-- Conversion of a `float` to `int`: the fractional part is discarded
(rounding toward zero). -/
def truncToInt (q : ℚ) : Int := if 0 ≤ q then ⌊q⌋ else -⌊-q⌋

/-- Rounding of a rational to the nearest integer, a tie going to the even
neighbour. -/
def roundTiesEven (t : ℚ) : Int :=
  let n := ⌊t⌋
  let r := t - n
  if r < 1 / 2 then n
  else if 1 / 2 < r then n + 1
  else if n % 2 = 0 then n else n + 1

/-- The exponent of the binade in which a `float` holds the value `q`: the
binary logarithm of the magnitude, and -126 for the subnormal range. -/
def f32Exponent (q : ℚ) : Int := max (Int.log 2 |q|) (-126)

/-- The spacing of the `float` values around `q`: 24 significant bits. -/
def f32Ulp (q : ℚ) : ℚ := (2 : ℚ) ^ (f32Exponent q - 23)

/-- The `float` (IEEE 754 binary32) nearest to `q`, ties to even: the result of
a `float` operation whose exact result is `q`. -/
def f32 (q : ℚ) : ℚ := (roundTiesEven (q / f32Ulp q) : ℚ) * f32Ulp q

/-- The values a `float` can hold: an integer of less than 24 bits times a
power of two not below `2 ^ (-149)`. -/
def IsF32 (r : ℚ) : Prop :=
  ∃ m k : Int, |m| < 2 ^ 24 ∧ -149 ≤ k ∧ r = (m : ℚ) * (2 : ℚ) ^ k

/-- The constructor `Player::Player`, given the animation table it copies from
the shared store (`animations_ = shared_animations_`). -/
def Player.new (env : Env) (shared_animations_ : PlayerState → Animation) : Player :=
  { is_parrying_ := false
    move_speed_ := 500
    parry_cooldown_ := 1 / 2
    parry_duration_ := f32 (1 / 10)
    parry_timer_ := 0
    direction_ := 0
    state_ := PlayerState.Idle
    prev_state_ := PlayerState.Idle
    current_frame_ := 0
    frame_time_ := 0
    flip_ := false
    velocity_ := { x := 0, y := 0 }
    animations_ := shared_animations_
    rect_ := { x := Int.tdiv env.WINDOW_WIDTH 2, y := Int.tdiv env.WINDOW_HEIGHT 2,
               w := 150, h := 150 } }

/-! ## `Player::Update` -/

/-- The local `acceleration` of `Update`. -/
def acceleration : ℚ := 3000

/-- The local `deceleration` of `Update`. -/
def deceleration : ℚ := 3000

/-- The local `maxSpeed` of `Update`. -/
def maxSpeed : ℚ := 500

/-- Body of `if (g_move_left)`; the product and the difference are `float`
operations. -/
def moveLeft (deltaTime : ℚ) (p : Player) : Player :=
  let vx := f32 (p.velocity_.x - f32 (acceleration * deltaTime))
  let vx := if vx < -maxSpeed then -maxSpeed else vx
  { p with velocity_ := { p.velocity_ with x := vx }, direction_ := 3, flip_ := false }

/-- Body of `if (g_move_right)`. -/
def moveRight (deltaTime : ℚ) (p : Player) : Player :=
  let vx := f32 (p.velocity_.x + f32 (acceleration * deltaTime))
  let vx := if vx > maxSpeed then maxSpeed else vx
  { p with velocity_ := { p.velocity_ with x := vx }, direction_ := 1, flip_ := true }

/-- Body of `if (g_move_up)`. -/
def moveUp (deltaTime : ℚ) (p : Player) : Player :=
  let vy := f32 (p.velocity_.y - f32 (acceleration * deltaTime))
  let vy := if vy < -maxSpeed then -maxSpeed else vy
  { p with velocity_ := { p.velocity_ with y := vy }, direction_ := 0 }

/-- Body of `if (g_move_down)`. -/
def moveDown (deltaTime : ℚ) (p : Player) : Player :=
  let vy := f32 (p.velocity_.y + f32 (acceleration * deltaTime))
  let vy := if vy > maxSpeed then maxSpeed else vy
  { p with velocity_ := { p.velocity_ with y := vy }, direction_ := 2 }

/-- The four input tests of `Update`, in source order; the second component is
the local `isMoving`. -/
def handleMovementInput (g : Globals) (deltaTime : ℚ) (p : Player) : Player × Bool :=
  let r : Player × Bool := (p, false)
  let r := if g.g_move_left then (moveLeft deltaTime r.1, true) else r
  let r := if g.g_move_right then (moveRight deltaTime r.1, true) else r
  let r := if g.g_move_up then (moveUp deltaTime r.1, true) else r
  let r := if g.g_move_down then (moveDown deltaTime r.1, true) else r
  r

/-- One axis of the deceleration block: a positive component decreases and stops
at 0, a negative one increases and stops at 0 (`float` operations). -/
def decelerateAxis (deltaTime : ℚ) (v : ℚ) : ℚ :=
  if v > 0 then
    let v := f32 (v - f32 (deceleration * deltaTime))
    if v < 0 then 0 else v
  else if v < 0 then
    let v := f32 (v + f32 (deceleration * deltaTime))
    if v > 0 then 0 else v
  else v

/-- The two deceleration blocks of `Update` ("Decelerate when no input is given"). -/
def decelerate (g : Globals) (deltaTime : ℚ) (p : Player) : Player :=
  let p := if !g.g_move_left && !g.g_move_right then
      { p with velocity_ := { p.velocity_ with x := decelerateAxis deltaTime p.velocity_.x } }
    else p
  let p := if !g.g_move_up && !g.g_move_down then
      { p with velocity_ := { p.velocity_ with y := decelerateAxis deltaTime p.velocity_.y } }
    else p
  p

/-- The position update `rect_.x += velocity_.x * deltaTime` (and the same for
`y`): the product and the sum are `float` operations, and the sum is stored
back into the `int` field. -/
def integrate (deltaTime : ℚ) (p : Player) : Player :=
  { p with rect_ :=
      { p.rect_ with
        x := truncToInt (f32 ((p.rect_.x : ℚ) + f32 (p.velocity_.x * deltaTime)))
        y := truncToInt (f32 ((p.rect_.y : ℚ) + f32 (p.velocity_.y * deltaTime))) } }

/-- State derivation and the reset of the frame index on a state change. -/
def deriveState (isMoving : Bool) (p : Player) : Player :=
  let p := if p.is_parrying_ then { p with state_ := PlayerState.Parry }
    else if isMoving then { p with state_ := PlayerState.Move }
    else { p with state_ := PlayerState.Idle }
  if p.state_ ≠ p.prev_state_ then { p with current_frame_ := 0, prev_state_ := p.state_ }
  else p

/-- The block "Update frame" of `Update`; `frame_time_ += deltaTime` is a
`float` addition, and the test reads the rounded accumulator. -/
def advanceFrame (deltaTime : ℚ) (p : Player) : Player :=
  let p := { p with frame_time_ := f32 (p.frame_time_ + deltaTime) }
  if !(p.animations_ p.state_).frames.isEmpty
      && decide (p.frame_time_ ≥ (p.animations_ p.state_).frame_duration) then
    { p with frame_time_ := 0
             current_frame_ := (p.current_frame_ + 1) % (p.animations_ p.state_).frames.length }
  else p

/-- The block "Update parry timer" of `Update`; `parry_timer_ -= deltaTime` is
a `float` subtraction. -/
def updateParryTimer (deltaTime : ℚ) (p : Player) : Player :=
  if p.parry_timer_ > 0 then { p with parry_timer_ := f32 (p.parry_timer_ - deltaTime) }
  else { p with is_parrying_ := false }

/-- The block "Keep player within window bounds" of `Update`. -/
def clampToWindow (env : Env) (p : Player) : Player :=
  { p with rect_ :=
      { p.rect_ with
        x := max 0 (min (env.WINDOW_WIDTH - p.rect_.w) p.rect_.x)
        y := max 0 (min (env.WINDOW_HEIGHT - p.rect_.h) p.rect_.y) } }

/-- The method `Player::Update(float deltaTime)`; `g` holds the four
directional flags it reads. -/
def Player.Update (env : Env) (g : Globals) (p : Player) (deltaTime : ℚ) : Player :=
  let r := handleMovementInput g deltaTime p
  let isMoving := r.2
  let p := decelerate g deltaTime r.1
  let p := integrate deltaTime p
  let p := deriveState isMoving p
  let p := advanceFrame deltaTime p
  let p := updateParryTimer deltaTime p
  clampToWindow env p

/-! ## `Player::PerformParry` and `Player::HandleEvents` -/

/-- The player, the process-wide variables and the monster collection of the
scene: what `HandleEvents` and `PerformParry` read and write. -/
structure World where
  player : Player
  globals : Globals
  monsters : List Monster

/-- The largest finite `float`, `std::numeric_limits<float>::max()`. -/
def FLT_MAX : Int := 2 ^ 128 - 2 ^ 104

/-- The local `parryDistance` of `PerformParry`. -/
def parryDistance : Int := 1000

/-- The argument of `sqrt` in the scan: `deltaX * deltaX + deltaY * deltaY`,
the squared Euclidean distance between the monster and the player position. -/
def distSq (p : Player) (m : Monster) : Int :=
  let deltaX := m.getX - p.rect_.x
  let deltaY := m.getY - p.rect_.y
  deltaX * deltaX + deltaY * deltaY

/-- The scan "find the closest monster" of `PerformParry`, from entry `i` on.
The state is `closestMonster` (the index of the entry and the object it points
to, `none` for `nullptr`) and `closestDistance`.  A distance is held as its
square: `sqrt` is strictly increasing on the non-negative numbers, so
`distance <= parryDistance` and `distance < closestDistance` are the same
comparisons between the squares. -/
def scanMonsters (p : Player) :
    List Monster → Nat → Option (Nat × Monster) × Int → Option (Nat × Monster) × Int
  | [], _, acc => acc
  | monster :: rest, i, (closestMonster, closestDistSq) =>
    let distance2 := distSq p monster
    if distance2 ≤ parryDistance * parryDistance ∧ distance2 < closestDistSq then
      scanMonsters p rest (i + 1) (some (i, monster), distance2)
    else
      scanMonsters p rest (i + 1) (closestMonster, closestDistSq)

/-- The value of `closestMonster` after the scan over the whole collection,
which starts from `nullptr` and `FLT_MAX`. -/
def findClosest (p : Player) (monsters : List Monster) : Option (Nat × Monster) :=
  (scanMonsters p monsters 0 (none, FLT_MAX * FLT_MAX)).1

/-- The local `parry_distance` of `PerformParry`: the length of the lunge. -/
def parry_distance : ℚ := 100

/-- The `switch (direction_)` at the end of a successful parry; it has no
`default` label, so any other value leaves the rectangle as it is.  The
operands are integers below 2^24, on which the `float` arithmetic is exact. -/
def lunge (p : Player) : Player :=
  if p.direction_ = 0 then
    { p with rect_ := { p.rect_ with y := truncToInt ((p.rect_.y : ℚ) - parry_distance) } }
  else if p.direction_ = 1 then
    { p with rect_ := { p.rect_ with x := truncToInt ((p.rect_.x : ℚ) + parry_distance) } }
  else if p.direction_ = 2 then
    { p with rect_ := { p.rect_ with y := truncToInt ((p.rect_.y : ℚ) + parry_distance) } }
  else if p.direction_ = 3 then
    { p with rect_ := { p.rect_ with x := truncToInt ((p.rect_.x : ℚ) - parry_distance) } }
  else p

/-- The block `if (closestMonster->IsDead())`, entered with the collection in
which entry `i` is the damaged target: `std::find` returns the position of that
entry, which is erased; the kill counter goes up; when fewer than 7 entries are
left a monster is constructed at the drawn position `(x, y)` and appended. -/
def removeDead (env : Env) (x y : Int) (i : Nat) (g : Globals) (monsters : List Monster) :
    Globals × List Monster :=
  if i < monsters.length then
    let monsters := monsters.eraseIdx i
    let g := { g with g_kill_count := g.g_kill_count + 1 }
    if monsters.length < 7 then
      if monsters.length % 2 = 0 then
        (g, monsters ++ [MovingMonster env x y])
      else
        (g, monsters ++ [RangedMonster env x y])
    else (g, monsters)
  else (g, monsters)

/-- The block `if (closestMonster != nullptr)` of `PerformParry`, for the
target at entry `i`: the flag and the timer are set (the timer to the `float`
sum `parry_cooldown_ + parry_duration_`), the target loses one health point, a
dead target is removed, and the player lunges. -/
def applyParry (env : Env) (x y : Int) (w : World) (i : Nat) (closestMonster : Monster) :
    World :=
  let p := { w.player with
             is_parrying_ := true
             parry_timer_ := f32 (w.player.parry_cooldown_ + w.player.parry_duration_) }
  let currentHealth := closestMonster.GetHealth
  let closestMonster := closestMonster.SetHealth (currentHealth - 1)
  let monsters := w.monsters.set i closestMonster
  let r := if env.IsDead closestMonster then removeDead env x y i w.globals monsters
    else (w.globals, monsters)
  { player := lunge p, globals := r.1, monsters := r.2 }

/-- The method `Player::PerformParry(std::vector<Monster*>& monsters)`; `x` and
`y` are the values `disX(gen)` and `disY(gen)` yield if they are drawn. -/
def PerformParry (env : Env) (x y : Int) (w : World) : World :=
  if w.player.parry_timer_ ≤ 0 then
    match findClosest w.player w.monsters with
    | none => w
    | some (i, closestMonster) => applyParry env x y w i closestMonster
  else w

/-- The two event types `HandleEvents` tells apart. -/
inductive EventType where
  | SDL_KEYDOWN
  | SDL_KEYUP
  | other
  deriving DecidableEq, Repr

/-- The key codes the sources test for. -/
inductive Keycode where
  | SDLK_LEFT
  | SDLK_RIGHT
  | SDLK_UP
  | SDLK_DOWN
  | SDLK_SPACE
  | SDLK_c
  | other
  deriving DecidableEq, Repr

/-- An input event: its type and, for a key event, the key. -/
structure SDL_Event where
  type : EventType
  sym : Keycode
  deriving DecidableEq, Repr

/-- The method `Player::HandleEvents(const SDL_Event&, std::vector<Monster*>&)`. -/
def HandleEvents (env : Env) (x y : Int) (event : SDL_Event) (w : World) : World :=
  match event.type with
  | EventType.SDL_KEYDOWN =>
    match event.sym with
    | Keycode.SDLK_LEFT => { w with globals := { w.globals with g_move_left := true } }
    | Keycode.SDLK_RIGHT => { w with globals := { w.globals with g_move_right := true } }
    | Keycode.SDLK_UP => { w with globals := { w.globals with g_move_up := true } }
    | Keycode.SDLK_DOWN => { w with globals := { w.globals with g_move_down := true } }
    | Keycode.SDLK_SPACE => PerformParry env x y w
    | _ => w
  | EventType.SDL_KEYUP =>
    match event.sym with
    | Keycode.SDLK_LEFT => { w with globals := { w.globals with g_move_left := false } }
    | Keycode.SDLK_RIGHT => { w with globals := { w.globals with g_move_right := false } }
    | Keycode.SDLK_UP => { w with globals := { w.globals with g_move_up := false } }
    | Keycode.SDLK_DOWN => { w with globals := { w.globals with g_move_down := false } }
    | _ => w
  | EventType.other => w

/-- The player states reachable from construction through calls of `Update`,
`HandleEvents` and `PerformParry`; the directional flags, the monster
collection, the random draws and `deltaTime` of each call are arbitrary. -/
inductive Player.Reachable (env : Env) : Player → Prop where
  | construct (shared_animations_ : PlayerState → Animation) :
      Player.Reachable env (Player.new env shared_animations_)
  | update (p : Player) (g : Globals) (deltaTime : ℚ) :
      Player.Reachable env p → Player.Reachable env (p.Update env g deltaTime)
  | handleEvents (p : Player) (g : Globals) (monsters : List Monster) (x y : Int)
      (event : SDL_Event) :
      Player.Reachable env p →
      Player.Reachable env
        (HandleEvents env x y event { player := p, globals := g, monsters := monsters }).player
  | performParry (p : Player) (g : Globals) (monsters : List Monster) (x y : Int) :
      Player.Reachable env p →
      Player.Reachable env
        (PerformParry env x y { player := p, globals := g, monsters := monsters }).player

/-- A run of `Update` calls: each tick gives the directional flags in force and
the `deltaTime` of the call. -/
def runUpdates (env : Env) (p : Player) : List (Globals × ℚ) → Player
  | [] => p
  | (g, deltaTime) :: ticks => runUpdates env (p.Update env g deltaTime) ticks


/-! ## The accessors of `Player` -/

/-- The method `Player::SetParrying`. -/
def Player.SetParrying (p : Player) (parrying : Bool) : Player :=
  { p with is_parrying_ := parrying }

/-- The method `Player::IsParrying`. -/
def Player.IsParrying (p : Player) : Bool := p.is_parrying_

/-- The method `Player::GetRect`: the rectangle with its width scaled by 0.5 and
its height by 0.6 (`smaller_rect.w *= 0.5`, `smaller_rect.h *= 0.6`), each
product stored back into the `int` field.  The products are formed in `double`;
for the sizes at hand the stored integer is that of the exact product. -/
def Player.GetRect (p : Player) : SDL_Rect :=
  let smaller_rect := p.rect_
  let smaller_rect := { smaller_rect with w := truncToInt ((smaller_rect.w : ℚ) * (1 / 2)) }
  let smaller_rect := { smaller_rect with h := truncToInt ((smaller_rect.h : ℚ) * (3 / 5)) }
  smaller_rect

/-- The method `Player::SetPosition`. -/
def Player.SetPosition (p : Player) (x y : Int) : Player :=
  { p with rect_ := { p.rect_ with x := x, y := y } }

/-! ## The shared animation store and the constructor -/

/-- The static members of `Player`: the load-once flag and the shared animation
table.  `loadTexturesCalls` is a ghost counter, the number of calls of
`LoadTextures` made so far; the program does not store it. -/
structure PlayerStatics where
  textures_loaded_ : Bool
  shared_animations_ : PlayerState → Animation
  loadTexturesCalls : Nat

/-- The static members at process start: the flag is `false` and the map is
empty (looking a state up yields an animation without frames). -/
def PlayerStatics.initial : PlayerStatics :=
  { textures_loaded_ := false
    shared_animations_ := fun _ => { frames := [], frame_duration := 0 }
    loadTexturesCalls := 0 }

/-- The method `Player::LoadAnimation`.  `loadTexture path` stands for
`IMG_Load` followed by `SDL_CreateTextureFromSurface`: the texture handle, or
`none` when either step fails, in which case the frame is skipped. -/
def LoadAnimation (loadTexture : String → Option Nat) (shared : PlayerState → Animation)
    (state : PlayerState) (base_path : String) (frame_count : Nat) (frame_duration : ℚ) :
    PlayerState → Animation :=
  let frames := (List.range frame_count).filterMap
    (fun k => loadTexture (base_path ++ toString (k + 1) ++ ".png"))
  Function.update shared state { frames := frames, frame_duration := frame_duration }

/-- The method `Player::LoadTextures`: the five animations, in source order. -/
def LoadTextures (loadTexture : String → Option Nat) (shared : PlayerState → Animation) :
    PlayerState → Animation :=
  let shared := LoadAnimation loadTexture shared PlayerState.Idle
    "../../Resource/Character/player/Idle_" 8 (f32 (1 / 10))
  let shared := LoadAnimation loadTexture shared PlayerState.Move
    "../../Resource/Character/player/Move_" 5 (f32 (1 / 10))
  let shared := LoadAnimation loadTexture shared PlayerState.Parry
    "../../Resource/Character/player/Parry_" 6 (f32 (1 / 10))
  let shared := LoadAnimation loadTexture shared PlayerState.Damage
    "../../Resource/Character/player/Damage_" 8 (f32 (1 / 10))
  let shared := LoadAnimation loadTexture shared PlayerState.Death
    "../../Resource/Character/player/Death_" 6 (f32 (1 / 10))
  shared

/-- The constructor `Player::Player` together with the static members it reads
and writes: `LoadTextures` runs when the flag is not set, then the instance
copies the shared table. -/
def Player.construct (env : Env) (loadTexture : String → Option Nat) (s : PlayerStatics) :
    Player × PlayerStatics :=
  let s := if !s.textures_loaded_ then
      { textures_loaded_ := true
        shared_animations_ := LoadTextures loadTexture s.shared_animations_
        loadTexturesCalls := s.loadTexturesCalls + 1 }
    else s
  (Player.new env s.shared_animations_, s)

/-- A sequence of constructions in one process; each takes the asset loader as
it behaves at that moment.  The players are returned in construction order. -/
def constructPlayers (env : Env) :
    List (String → Option Nat) → PlayerStatics → List Player × PlayerStatics
  | [], s => ([], s)
  | loadTexture :: rest, s =>
    let r := Player.construct env loadTexture s
    let rs := constructPlayers env rest r.2
    (r.1 :: rs.1, rs.2)

/-! ## The tutorial scene (`Tutorial.cpp`) -/

/-- Modelled from the spec: the base class `Map` is declared outside the
sources at hand.  These are its members that `Tutorial.cpp` uses: the monster
collection, the spawn capacity, the death counter (a count, "monotonically
increasing"), the spawn delay and the player. -/
structure Map where
  monsters : List Monster
  maxMonsters : Nat
  deathCount : Nat
  spawnDelay : ℚ
  player_ : Player

/-- The data members of `Tutorial`: the base object, the portal flag and the
portal rectangle. -/
structure Tutorial extends Map where
  showPortal : Bool
  portalRect : SDL_Rect

/-- The constructor `Tutorial::Tutorial`, given the base object that
`Map(path, 3)` builds: capacity 3, portal hidden, spawn delay 1, portal
rectangle `{350, 500, 100, 100}`. -/
def Tutorial.new (base : Map) : Tutorial :=
  { base with
    maxMonsters := 3
    spawnDelay := 1
    showPortal := false
    portalRect := { x := 350, y := 500, w := 100, h := 100 } }

/-- The method `Tutorial::SpawnMonsters`: one monster of each class, each at its
own drawn position. -/
def Tutorial.SpawnMonsters (env : Env) (x1 y1 x2 y2 x3 y3 : Int) (t : Tutorial) : Tutorial :=
  let t := { t with monsters := t.monsters ++ [MovingMonster env x1 y1] }
  let t := { t with monsters := t.monsters ++ [RangedMonster env x2 y2] }
  let t := { t with monsters := t.monsters ++ [ChargingMonster env x3 y3] }
  t

/-- The method `Tutorial::SpawnMonster`; `x` and `y` are the drawn position. -/
def Tutorial.SpawnMonster (env : Env) (x y : Int) (t : Tutorial) : Tutorial :=
  if t.monsters.length < t.maxMonsters then
    let t := { t with deathCount := t.deathCount + 1 }
    if t.deathCount % 3 = 1 then
      { t with monsters := t.monsters ++ [MovingMonster env x y] }
    else if t.deathCount % 3 = 2 then
      { t with monsters := t.monsters ++ [RangedMonster env x y] }
    else if t.deathCount % 3 = 0 then
      { t with monsters := t.monsters ++ [ChargingMonster env x y] }
    else t
  else t

/-- The SDL library predicate `SDL_RectEmpty`: no width or no height. -/
def SDL_RectEmpty (r : SDL_Rect) : Bool := decide (r.w ≤ 0) || decide (r.h ≤ 0)

/-- The SDL library function `SDL_HasIntersection` (SDL2, `SDL_rect.c`) on two
rectangles: empty rectangles intersect nothing; otherwise the horizontal and
the vertical extents must overlap in more than a point. -/
def SDL_HasIntersection (A B : SDL_Rect) : Bool :=
  if SDL_RectEmpty A || SDL_RectEmpty B then false
  else
    let Amin := A.x
    let Amax := Amin + A.w
    let Bmin := B.x
    let Bmax := Bmin + B.w
    let Amin := if Bmin > Amin then Bmin else Amin
    let Amax := if Bmax < Amax then Bmax else Amax
    if Amax ≤ Amin then false
    else
      let Amin := A.y
      let Amax := Amin + A.h
      let Bmin := B.y
      let Bmax := Bmin + B.h
      let Amin := if Bmin > Amin then Bmin else Amin
      let Amax := if Bmax < Amax then Bmax else Amax
      if Amax ≤ Amin then false else true

/-- The part of `Tutorial::Update` after the call of `Map::Update`: the portal
gate. -/
def Tutorial.portalGate (env : Env) (t : Tutorial) (g : Globals) : Tutorial × Globals :=
  let playerRect := t.player_.GetRect
  if t.showPortal && SDL_HasIntersection playerRect t.portalRect then
    let g := { g with g_kill_count := 0 }
    let g := { g with g_player_health := 10 }
    let g := { g with g_current_game_phase := env.PHASE_Entrance }
    let t := { t with player_ := t.player_.SetPosition (Int.tdiv env.WINDOW_WIDTH 2)
                                   (Int.tdiv env.WINDOW_HEIGHT 2) }
    (t, g)
  else (t, g)

/-- The method `Tutorial::Update`.  `mapUpdate` stands for `Map::Update`, which
is not among the sources: it acts on the base object and the process-wide
variables, and cannot reach the members `Tutorial` adds. -/
def Tutorial.Update (env : Env) (mapUpdate : ℚ → Map × Globals → Map × Globals)
    (deltaTime : ℚ) (t : Tutorial) (g : Globals) : Tutorial × Globals :=
  let r := mapUpdate deltaTime (t.toMap, g)
  let t := { t with toMap := r.1 }
  Tutorial.portalGate env t r.2

/-- The method `Tutorial::HandleEvent`: the key C shows the portal. -/
def Tutorial.HandleEvent (event : SDL_Event) (t : Tutorial) : Tutorial :=
  if event.type = EventType.SDL_KEYDOWN then
    if event.sym = Keycode.SDLK_c then { t with showPortal := true }
    else t
  else t

/-- The method `Tutorial::ResetPortalCloaking`. -/
def Tutorial.ResetPortalCloaking (t : Tutorial) : Tutorial :=
  { t with showPortal := false }

/-! ## Sample values

`globals.h` and the monster classes are not among the sources; the values below
are examples used to evaluate the definitions on concrete inputs. -/

/-- An example environment: an 800 x 600 window, monsters dead at health 0 or
less, three health points for each new monster. -/
def sampleEnv : Env :=
  { WINDOW_WIDTH := 800
    WINDOW_HEIGHT := 600
    PHASE_Entrance := 1
    IsDead := fun m => decide (m.health ≤ 0)
    movingHealth := 3
    rangedHealth := 3
    chargingHealth := 3 }

/-- An example animation table: three frames of `0.1f` seconds per state. -/
def sampleAnimations : PlayerState → Animation :=
  fun _ => { frames := [1, 2, 3], frame_duration := f32 (1 / 10) }

/-- Example process-wide variables: no key held, counters at 0, health 10. -/
def sampleGlobals : Globals :=
  { g_move_left := false
    g_move_right := false
    g_move_up := false
    g_move_down := false
    g_kill_count := 0
    g_player_health := 10
    g_current_game_phase := 0 }

/-- The freshly constructed player of the example environment, at (400, 300). -/
def samplePlayer : Player := Player.new sampleEnv sampleAnimations

/-- Example ticks: left and right held together, then right alone, then no key. -/
def sampleTicks : List (Globals × ℚ) :=
  [({ sampleGlobals with g_move_left := true, g_move_right := true }, 1 / 4),
   ({ sampleGlobals with g_move_right := true }, 1 / 2),
   (sampleGlobals, 1 / 60)]

/-- What the scan of `PerformParry` has established once the entries `l` have
been visited: with no candidate so far, `closestDistance` is still `FLT_MAX` and
every visited monster is out of range; with a candidate, it is an entry of `l`
in range, `closestDistance` is its distance, no visited monster is closer and
every monster before it is strictly farther. -/
def ScanInv (p : Player) (l : List Monster) (acc : Option (Nat × Monster) × Int) : Prop :=
  match acc.1 with
  | none => acc.2 = FLT_MAX * FLT_MAX ∧ ∀ m ∈ l, parryDistance * parryDistance < distSq p m
  | some (k, t) =>
    l[k]? = some t ∧ distSq p t = acc.2 ∧ acc.2 ≤ parryDistance * parryDistance ∧
    (∀ m ∈ l, acc.2 ≤ distSq p m) ∧
    (∀ j m, j < k → l[j]? = some m → acc.2 < distSq p m)

/-- Example monsters: one at distance 500 from the example player, one at
distance 1200. -/
def sampleMonsters : List Monster :=
  [{ kind := MonsterKind.Moving, x := 700, y := 700, health := 2 },
   { kind := MonsterKind.Ranged, x := 1600, y := 300, health := 2 }]

/-- An example world in which the only monster is 1200 away from the player. -/
def sampleFarWorld : World :=
  { player := samplePlayer
    globals := sampleGlobals
    monsters := [{ kind := MonsterKind.Ranged, x := 1600, y := 300, health := 2 }] }

/-- The example player among the example monsters. -/
def sampleWorld : World :=
  { player := samplePlayer, globals := sampleGlobals, monsters := sampleMonsters }

/-- Example monsters: the one at distance 500 has a single health point left. -/
def sampleWeakMonsters : List Monster :=
  [{ kind := MonsterKind.Moving, x := 700, y := 700, health := 1 },
   { kind := MonsterKind.Ranged, x := 1600, y := 300, health := 2 }]

/-- The example player among `sampleWeakMonsters`. -/
def sampleWeakWorld : World :=
  { player := samplePlayer, globals := sampleGlobals, monsters := sampleWeakMonsters }

/-- An example world with seven monsters, the first of them 500 away from the
player with a single health point left. -/
def sampleFullWorld : World :=
  { player := samplePlayer
    globals := sampleGlobals
    monsters :=
      [{ kind := MonsterKind.Moving, x := 700, y := 700, health := 1 },
       { kind := MonsterKind.Ranged, x := 1600, y := 300, health := 2 },
       { kind := MonsterKind.Charging, x := 1600, y := 400, health := 2 },
       { kind := MonsterKind.Moving, x := 1600, y := 500, health := 2 },
       { kind := MonsterKind.Ranged, x := 1600, y := 600, health := 2 },
       { kind := MonsterKind.Charging, x := 1600, y := 700, health := 2 },
       { kind := MonsterKind.Moving, x := 1600, y := 800, health := 2 }] }

/-- An example world with three monsters, the number the tutorial scene passes
as `maxMonsters`; the first is 500 away with a single health point left. -/
def sampleTutorialWorld : World :=
  { player := samplePlayer
    globals := sampleGlobals
    monsters :=
      [{ kind := MonsterKind.Moving, x := 700, y := 700, health := 1 },
       { kind := MonsterKind.Ranged, x := 1600, y := 300, health := 2 },
       { kind := MonsterKind.Charging, x := 1600, y := 400, health := 2 }] }

/-- An example world with eight monsters, the first of them 500 away from the
player with a single health point left. -/
def sampleCrowdedWorld : World :=
  { player := samplePlayer
    globals := sampleGlobals
    monsters :=
      [{ kind := MonsterKind.Moving, x := 700, y := 700, health := 1 },
       { kind := MonsterKind.Ranged, x := 1600, y := 300, health := 2 },
       { kind := MonsterKind.Charging, x := 1600, y := 400, health := 2 },
       { kind := MonsterKind.Moving, x := 1600, y := 500, health := 2 },
       { kind := MonsterKind.Ranged, x := 1600, y := 600, health := 2 },
       { kind := MonsterKind.Charging, x := 1600, y := 700, health := 2 },
       { kind := MonsterKind.Moving, x := 1600, y := 800, health := 2 },
       { kind := MonsterKind.Ranged, x := 1600, y := 900, health := 2 }] }

/-- The facing direction is one of the four cardinal values. -/
def DirectionValid (p : Player) : Prop :=
  p.direction_ = 0 ∨ p.direction_ = 1 ∨ p.direction_ = 2 ∨ p.direction_ = 3

/-- The frame index is a valid index into the animation of the state recorded
in `prev_state_`, whenever that animation has frames. -/
def FrameValid (p : Player) : Prop :=
  (p.animations_ p.prev_state_).frames ≠ [] →
    p.current_frame_ < (p.animations_ p.prev_state_).frames.length

/-- An example tutorial scene: no monster yet, capacity 3, counter at 0, the
example player moved onto the portal. -/
def sampleTutorial : Tutorial :=
  Tutorial.new
    { monsters := []
      maxMonsters := 3
      deathCount := 0
      spawnDelay := 1
      player_ := samplePlayer.SetPosition 360 480 }

/-- The example scene after the key C has been pressed: the portal is armed. -/
def sampleArmedTutorial : Tutorial :=
  Tutorial.HandleEvent { type := EventType.SDL_KEYDOWN, sym := Keycode.SDLK_c } sampleTutorial

/-- Velocity within the maximum speed on both axes. -/
def VelocityBounded (p : Player) : Prop :=
  -maxSpeed ≤ p.velocity_.x ∧ p.velocity_.x ≤ maxSpeed ∧
  -maxSpeed ≤ p.velocity_.y ∧ p.velocity_.y ≤ maxSpeed

/-! ## Rounding to `float` -/

theorem roundTiesEven_le (t : ℚ) (n : Int) (h : t ≤ n) : roundTiesEven t ≤ n := by
  unfold roundTiesEven
  dsimp only
  have h1 := Int.floor_le t
  by_cases hfl : ⌊t⌋ = n
  · have hr : t - (⌊t⌋ : ℚ) < 1 / 2 := by
      rw [hfl]
      linarith
    rw [if_pos hr]
    omega
  · have hle : ⌊t⌋ ≤ n := Int.floor_le_iff.mpr (by linarith)
    have hlt : ⌊t⌋ < n := lt_of_le_of_ne hle hfl
    split_ifs <;> omega

theorem le_roundTiesEven (t : ℚ) (n : Int) (h : (n : ℚ) ≤ t) : n ≤ roundTiesEven t := by
  unfold roundTiesEven
  dsimp only
  have hle : n ≤ ⌊t⌋ := Int.le_floor.mpr h
  split_ifs <;> omega

theorem roundTiesEven_eq_of_close (t : ℚ) (n : Int) (h : |t - n| < 1 / 2) :
    roundTiesEven t = n := by
  rw [abs_lt] at h
  obtain ⟨h1, h2⟩ := h
  unfold roundTiesEven
  dsimp only
  by_cases hge : (n : ℚ) ≤ t
  · have hfl : ⌊t⌋ = n := Int.floor_eq_iff.mpr ⟨hge, by linarith⟩
    rw [hfl, if_pos (by linarith)]
  · have hlt : t < n := not_le.mp hge
    have hfl : ⌊t⌋ = n - 1 := Int.floor_eq_iff.mpr ⟨by push_cast; linarith, by push_cast; linarith⟩
    rw [hfl, if_neg (by push_cast; linarith), if_pos (by push_cast; linarith)]
    omega

theorem f32Ulp_pos (q : ℚ) : 0 < f32Ulp q := zpow_pos (by norm_num) _

theorem zpow_f32Exponent_le_abs (q : ℚ) (hq : q ≠ 0) (hE : -126 < f32Exponent q) :
    (2 : ℚ) ^ f32Exponent q ≤ |q| := by
  have hlog : f32Exponent q = Int.log 2 |q| := by
    unfold f32Exponent at hE ⊢
    rcases max_cases (Int.log 2 |q|) (-126) with h | h
    · exact h.1
    · omega
  rw [hlog]
  have h := Int.zpow_log_le_self (b := 2) (r := |q|) (by norm_num) (abs_pos.mpr hq)
  calc (2 : ℚ) ^ Int.log 2 |q| = ((2 : ℕ) : ℚ) ^ Int.log 2 |q| := by norm_num
    _ ≤ |q| := h

theorem f32_zero : f32 0 = 0 := by
  have h : roundTiesEven (0 / f32Ulp 0) = 0 := by
    apply roundTiesEven_eq_of_close
    norm_num
  unfold f32
  rw [h]
  simp

/-- Rounding does not step over a multiple of the spacing from below. -/
theorem f32_le_mul_ulp (q : ℚ) (N : Int) (h : q ≤ (N : ℚ) * f32Ulp q) :
    f32 q ≤ (N : ℚ) * f32Ulp q := by
  unfold f32
  have hr : roundTiesEven (q / f32Ulp q) ≤ N :=
    roundTiesEven_le _ _ ((div_le_iff₀ (f32Ulp_pos q)).mpr h)
  exact mul_le_mul_of_nonneg_right (by exact_mod_cast hr) (f32Ulp_pos q).le

/-- Rounding does not step over a multiple of the spacing from above. -/
theorem mul_ulp_le_f32 (q : ℚ) (N : Int) (h : (N : ℚ) * f32Ulp q ≤ q) :
    (N : ℚ) * f32Ulp q ≤ f32 q := by
  unfold f32
  have hr : N ≤ roundTiesEven (q / f32Ulp q) :=
    le_roundTiesEven _ _ ((le_div_iff₀ (f32Ulp_pos q)).mpr h)
  exact mul_le_mul_of_nonneg_right (by exact_mod_cast hr) (f32Ulp_pos q).le

/-- A `float` value with an exponent at or above that of the spacing around
`q` is a multiple of that spacing. -/
theorem mul_zpow_eq_mul_ulp (q : ℚ) (m k : Int) (hk : f32Exponent q - 23 ≤ k) :
    (m : ℚ) * (2 : ℚ) ^ k =
      ((m * 2 ^ (k - (f32Exponent q - 23)).toNat : Int) : ℚ) * f32Ulp q := by
  unfold f32Ulp
  push_cast
  rw [mul_assoc, ← zpow_natCast, ← zpow_add₀ (by norm_num)]
  congr 2
  have := Int.toNat_of_nonneg (show 0 ≤ k - (f32Exponent q - 23) by omega)
  omega

theorem zpow_exponent_eq_mul_ulp (q : ℚ) :
    (2 : ℚ) ^ f32Exponent q = ((2 ^ 23 : Int) : ℚ) * f32Ulp q := by
  unfold f32Ulp
  push_cast
  rw [show (8388608 : ℚ) = (2 : ℚ) ^ (23 : ℤ) by norm_num, ← zpow_add₀ (by norm_num)]
  congr 1
  omega

/-- A `float` value whose exponent is below that of the spacing around `q` is
smaller in magnitude than the binade of `q`. -/
theorem abs_lt_zpow_of_small_exponent (q : ℚ) (m k : Int) (hm : |m| < 2 ^ 24)
    (hk : k < f32Exponent q - 23) :
    |(m : ℚ) * (2 : ℚ) ^ k| < (2 : ℚ) ^ f32Exponent q := by
  have hp : (0 : ℚ) < (2 : ℚ) ^ k := zpow_pos (by norm_num) _
  have hmq : |(m : ℚ)| < (2 : ℚ) ^ (24 : ℤ) := by
    have : ((|m| : Int) : ℚ) < ((2 ^ 24 : Int) : ℚ) := by exact_mod_cast hm
    rw [Int.cast_abs] at this
    norm_num at this ⊢
    exact this
  calc |(m : ℚ) * (2 : ℚ) ^ k| = |(m : ℚ)| * (2 : ℚ) ^ k := by
        rw [abs_mul, abs_of_pos hp]
    _ < (2 : ℚ) ^ (24 : ℤ) * (2 : ℚ) ^ k := mul_lt_mul_of_pos_right hmq hp
    _ = (2 : ℚ) ^ (24 + k) := (zpow_add₀ (by norm_num) _ _).symm
    _ ≤ (2 : ℚ) ^ f32Exponent q := zpow_le_zpow_right₀ (by norm_num) (by omega)

/-- Rounding to `float` never crosses a `float` value from below: a bound that
a `float` can hold is kept. -/
theorem f32_le_of_le (q r : ℚ) (hr : IsF32 r) (h : q ≤ r) : f32 q ≤ r := by
  obtain ⟨m, k, hm, hk, rfl⟩ := hr
  by_cases hq : q = 0
  · rw [hq, f32_zero]
    rw [hq] at h
    exact h
  by_cases hk2 : f32Exponent q - 23 ≤ k
  · rw [mul_zpow_eq_mul_ulp q m k hk2] at h ⊢
    exact f32_le_mul_ulp q _ h
  · have hk3 : k < f32Exponent q - 23 := not_le.mp hk2
    have hsmall := abs_lt_zpow_of_small_exponent q m k hm hk3
    have hbig := zpow_f32Exponent_le_abs q hq (by omega)
    have hrl := neg_abs_le ((m : ℚ) * (2 : ℚ) ^ k)
    have hneg : q < 0 := by
      by_contra hcon
      rw [abs_of_nonneg (not_lt.mp hcon)] at hbig
      have := le_abs_self ((m : ℚ) * (2 : ℚ) ^ k)
      linarith
    rw [abs_of_neg hneg] at hbig
    have hq2 : q ≤ ((-(2 ^ 23) : Int) : ℚ) * f32Ulp q := by
      have := zpow_exponent_eq_mul_ulp q
      push_cast at this ⊢
      linarith
    have h3 := f32_le_mul_ulp q _ hq2
    have := zpow_exponent_eq_mul_ulp q
    push_cast at this h3
    linarith

/-- Rounding to `float` never crosses a `float` value from above. -/
theorem le_f32_of_le (q r : ℚ) (hr : IsF32 r) (h : r ≤ q) : r ≤ f32 q := by
  obtain ⟨m, k, hm, hk, rfl⟩ := hr
  by_cases hq : q = 0
  · rw [hq, f32_zero]
    rw [hq] at h
    exact h
  by_cases hk2 : f32Exponent q - 23 ≤ k
  · rw [mul_zpow_eq_mul_ulp q m k hk2] at h ⊢
    exact mul_ulp_le_f32 q _ h
  · have hk3 : k < f32Exponent q - 23 := not_le.mp hk2
    have hsmall := abs_lt_zpow_of_small_exponent q m k hm hk3
    have hbig := zpow_f32Exponent_le_abs q hq (by omega)
    have hrl := le_abs_self ((m : ℚ) * (2 : ℚ) ^ k)
    have hpos : 0 < q := by
      by_contra hcon
      rw [abs_of_nonpos (not_lt.mp hcon)] at hbig
      have := neg_abs_le ((m : ℚ) * (2 : ℚ) ^ k)
      linarith
    rw [abs_of_pos hpos] at hbig
    have hq2 : (((2 ^ 23) : Int) : ℚ) * f32Ulp q ≤ q := by
      have := zpow_exponent_eq_mul_ulp q
      push_cast at this ⊢
      linarith
    have h3 := mul_ulp_le_f32 q _ hq2
    have := zpow_exponent_eq_mul_ulp q
    push_cast at this h3
    linarith

/-- A value a `float` can hold is not changed by rounding. -/
theorem f32_of_isF32 (r : ℚ) (hr : IsF32 r) : f32 r = r :=
  le_antisymm (f32_le_of_le r r hr (le_refl r)) (le_f32_of_le r r hr (le_refl r))

theorem isF32_zero : IsF32 0 := ⟨0, 0, by norm_num, by norm_num, by norm_num⟩

theorem isF32_intCast (z : Int) (hz : |z| < 2 ^ 24) : IsF32 (z : ℚ) :=
  ⟨z, 0, hz, by norm_num, by simp⟩

theorem f32_nonneg (q : ℚ) (h : 0 ≤ q) : 0 ≤ f32 q := le_f32_of_le q 0 isF32_zero h

theorem f32_nonpos (q : ℚ) (h : q ≤ 0) : f32 q ≤ 0 := f32_le_of_le q 0 isF32_zero h

/-- Evaluation of the rounding: `q` lies in the binade of exponent `e`, and `n`
is the integer nearest to `q` in units of the spacing `2 ^ (e - 23)`. -/
theorem f32_eq_of_close (q : ℚ) (e n : Int) (he : -126 ≤ e) (h1 : (2 : ℚ) ^ e ≤ |q|)
    (h2 : |q| < (2 : ℚ) ^ (e + 1)) (h3 : |q / (2 : ℚ) ^ (e - 23) - n| < 1 / 2) :
    f32 q = (n : ℚ) * (2 : ℚ) ^ (e - 23) := by
  have hpos : 0 < |q| := lt_of_lt_of_le (zpow_pos (by norm_num) _) h1
  have hlog : Int.log 2 |q| = e := by
    apply le_antisymm
    · have := (Int.lt_zpow_iff_log_lt (b := 2) (by norm_num) (x := e + 1) hpos).mp
        (by norm_num; exact h2)
      omega
    · exact (Int.zpow_le_iff_le_log (b := 2) (by norm_num) hpos).mp (by norm_num; exact h1)
  have hE : f32Exponent q = e := by
    unfold f32Exponent
    rw [hlog]
    exact max_eq_left he
  unfold f32 f32Ulp
  rw [hE, roundTiesEven_eq_of_close _ n h3]


theorem f32_tenth : f32 (1 / 10) = 13421773 / 134217728 := by
  rw [f32_eq_of_close (1 / 10) (-4) 13421773 (by norm_num) (by norm_num [abs_of_pos])
    (by norm_num [abs_of_pos]) (by norm_num [abs_lt])]
  norm_num

theorem f32_parry_timer : f32 (1 / 2 + f32 (1 / 10)) = 5033165 / 8388608 := by
  rw [f32_tenth, f32_eq_of_close _ (-1) 10066330 (by norm_num) (by norm_num [abs_of_pos])
    (by norm_num [abs_of_pos]) (by norm_num [abs_lt])]
  norm_num

/-! ## Frame lemmas: what each block of `Update` leaves alone -/

theorem Update_eq (env : Env) (g : Globals) (p : Player) (dt : ℚ) :
    p.Update env g dt =
      clampToWindow env (updateParryTimer dt (advanceFrame dt
        (deriveState (handleMovementInput g dt p).2
          (integrate dt (decelerate g dt (handleMovementInput g dt p).1))))) := rfl

theorem handleMovementInput_rect (g : Globals) (dt : ℚ) (p : Player) :
    (handleMovementInput g dt p).1.rect_ = p.rect_ := by
  unfold handleMovementInput moveLeft moveRight moveUp moveDown
  cases g.g_move_left <;> cases g.g_move_right <;> cases g.g_move_up <;>
    cases g.g_move_down <;> rfl

theorem decelerate_rect (g : Globals) (dt : ℚ) (p : Player) :
    (decelerate g dt p).rect_ = p.rect_ := by
  unfold decelerate
  cases g.g_move_left <;> cases g.g_move_right <;> cases g.g_move_up <;>
    cases g.g_move_down <;> rfl

theorem deriveState_rect (b : Bool) (p : Player) : (deriveState b p).rect_ = p.rect_ := by
  unfold deriveState
  cases p.is_parrying_ <;> cases b <;> simp <;> split_ifs <;> rfl

theorem advanceFrame_rect (dt : ℚ) (p : Player) : (advanceFrame dt p).rect_ = p.rect_ := by
  unfold advanceFrame
  simp only
  split_ifs <;> rfl

theorem updateParryTimer_rect (dt : ℚ) (p : Player) :
    (updateParryTimer dt p).rect_ = p.rect_ := by
  unfold updateParryTimer
  split_ifs <;> rfl

/-! ## The bounds clamp -/

/-- C1: after `Update` the rectangle lies inside the window on both axes,
`0 ≤ x ≤ WINDOW_WIDTH - w` and `0 ≤ y ≤ WINDOW_HEIGHT - h`, whatever the state
before the call (position included), the directional flags and `deltaTime`,
provided the rectangle is not larger than the window. -/
theorem update_position_in_window (env : Env) (g : Globals) (p : Player) (deltaTime : ℚ)
    (hw : p.rect_.w ≤ env.WINDOW_WIDTH) (hh : p.rect_.h ≤ env.WINDOW_HEIGHT) :
    0 ≤ (p.Update env g deltaTime).rect_.x ∧
    (p.Update env g deltaTime).rect_.x ≤ env.WINDOW_WIDTH - (p.Update env g deltaTime).rect_.w ∧
    0 ≤ (p.Update env g deltaTime).rect_.y ∧
    (p.Update env g deltaTime).rect_.y ≤
      env.WINDOW_HEIGHT - (p.Update env g deltaTime).rect_.h := by
  have hW : ∀ q : Player, q.rect_.w = p.rect_.w → q.rect_.h = p.rect_.h →
      0 ≤ (clampToWindow env q).rect_.x ∧
      (clampToWindow env q).rect_.x ≤ env.WINDOW_WIDTH - (clampToWindow env q).rect_.w ∧
      0 ≤ (clampToWindow env q).rect_.y ∧
      (clampToWindow env q).rect_.y ≤ env.WINDOW_HEIGHT - (clampToWindow env q).rect_.h := by
    intro q h1 h2
    simp only [clampToWindow, h1, h2]
    refine ⟨le_max_left _ _, ?_, le_max_left _ _, ?_⟩
    · exact max_le (by omega) (min_le_left _ _)
    · exact max_le (by omega) (min_le_left _ _)
  rw [Update_eq]
  apply hW
  · simp [updateParryTimer_rect, advanceFrame_rect, deriveState_rect, integrate,
      decelerate_rect, handleMovementInput_rect]
  · simp [updateParryTimer_rect, advanceFrame_rect, deriveState_rect, integrate,
      decelerate_rect, handleMovementInput_rect]


/-- Witness for C1: a player pushed far outside an 800 x 600 window. -/
theorem update_position_in_window_witness :
    ((150 : Int) ≤ 800 ∧ (150 : Int) ≤ 600) ∧
    (0 ≤ (Player.Update sampleEnv sampleGlobals
        { samplePlayer with rect_ := { x := 5000, y := -70, w := 150, h := 150 } } (1 / 60)).rect_.x ∧
      (Player.Update sampleEnv sampleGlobals
        { samplePlayer with rect_ := { x := 5000, y := -70, w := 150, h := 150 } } (1 / 60)).rect_.x ≤
        sampleEnv.WINDOW_WIDTH - (Player.Update sampleEnv sampleGlobals
        { samplePlayer with rect_ := { x := 5000, y := -70, w := 150, h := 150 } } (1 / 60)).rect_.w ∧
      0 ≤ (Player.Update sampleEnv sampleGlobals
        { samplePlayer with rect_ := { x := 5000, y := -70, w := 150, h := 150 } } (1 / 60)).rect_.y ∧
      (Player.Update sampleEnv sampleGlobals
        { samplePlayer with rect_ := { x := 5000, y := -70, w := 150, h := 150 } } (1 / 60)).rect_.y ≤
        sampleEnv.WINDOW_HEIGHT - (Player.Update sampleEnv sampleGlobals
        { samplePlayer with rect_ := { x := 5000, y := -70, w := 150, h := 150 } } (1 / 60)).rect_.h) :=
  ⟨by decide,
   update_position_in_window sampleEnv sampleGlobals
     { samplePlayer with rect_ := { x := 5000, y := -70, w := 150, h := 150 } } (1 / 60)
     (by decide) (by decide)⟩

/-! ## The speed cap -/

theorem isF32_maxSpeed : IsF32 maxSpeed :=
  ⟨500, 0, by norm_num, by norm_num, by norm_num [maxSpeed]⟩

theorem isF32_neg_maxSpeed : IsF32 (-maxSpeed) :=
  ⟨-500, 0, by norm_num, by norm_num, by norm_num [maxSpeed]⟩

theorem f32_speed_step_nonneg (c dt : ℚ) (hc : 0 ≤ c) (hdt : 0 ≤ dt) : 0 ≤ f32 (c * dt) :=
  f32_nonneg _ (mul_nonneg hc hdt)

theorem moveLeft_bounded (dt : ℚ) (p : Player) (hdt : 0 ≤ dt) (h : VelocityBounded p) :
    VelocityBounded (moveLeft dt p) := by
  obtain ⟨h1, h2, h3, h4⟩ := h
  have ha : 0 ≤ f32 (acceleration * dt) :=
    f32_speed_step_nonneg _ _ (by norm_num [acceleration]) hdt
  have hv : f32 (p.velocity_.x - f32 (acceleration * dt)) ≤ maxSpeed :=
    f32_le_of_le _ _ isF32_maxSpeed (by linarith)
  have hm : (0 : ℚ) ≤ maxSpeed := by norm_num [maxSpeed]
  refine ⟨?_, ?_, h3, h4⟩ <;> simp only [moveLeft] <;> split_ifs <;> linarith

theorem moveRight_bounded (dt : ℚ) (p : Player) (hdt : 0 ≤ dt) (h : VelocityBounded p) :
    VelocityBounded (moveRight dt p) := by
  obtain ⟨h1, h2, h3, h4⟩ := h
  have ha : 0 ≤ f32 (acceleration * dt) :=
    f32_speed_step_nonneg _ _ (by norm_num [acceleration]) hdt
  have hv : -maxSpeed ≤ f32 (p.velocity_.x + f32 (acceleration * dt)) :=
    le_f32_of_le _ _ isF32_neg_maxSpeed (by linarith)
  have hm : (0 : ℚ) ≤ maxSpeed := by norm_num [maxSpeed]
  refine ⟨?_, ?_, h3, h4⟩ <;> simp only [moveRight] <;> split_ifs <;> linarith

theorem moveUp_bounded (dt : ℚ) (p : Player) (hdt : 0 ≤ dt) (h : VelocityBounded p) :
    VelocityBounded (moveUp dt p) := by
  obtain ⟨h1, h2, h3, h4⟩ := h
  have ha : 0 ≤ f32 (acceleration * dt) :=
    f32_speed_step_nonneg _ _ (by norm_num [acceleration]) hdt
  have hv : f32 (p.velocity_.y - f32 (acceleration * dt)) ≤ maxSpeed :=
    f32_le_of_le _ _ isF32_maxSpeed (by linarith)
  have hm : (0 : ℚ) ≤ maxSpeed := by norm_num [maxSpeed]
  refine ⟨h1, h2, ?_, ?_⟩ <;> simp only [moveUp] <;> split_ifs <;> linarith

theorem moveDown_bounded (dt : ℚ) (p : Player) (hdt : 0 ≤ dt) (h : VelocityBounded p) :
    VelocityBounded (moveDown dt p) := by
  obtain ⟨h1, h2, h3, h4⟩ := h
  have ha : 0 ≤ f32 (acceleration * dt) :=
    f32_speed_step_nonneg _ _ (by norm_num [acceleration]) hdt
  have hv : -maxSpeed ≤ f32 (p.velocity_.y + f32 (acceleration * dt)) :=
    le_f32_of_le _ _ isF32_neg_maxSpeed (by linarith)
  have hm : (0 : ℚ) ≤ maxSpeed := by norm_num [maxSpeed]
  refine ⟨h1, h2, ?_, ?_⟩ <;> simp only [moveDown] <;> split_ifs <;> linarith

theorem inputStage_bounded (b : Bool) (f : Player → Player)
    (hf : ∀ q, VelocityBounded q → VelocityBounded (f q)) (r : Player × Bool)
    (h : VelocityBounded r.1) :
    VelocityBounded (if b = true then (f r.1, true) else r).1 := by
  cases b
  · simpa using h
  · simpa using hf _ h

theorem handleMovementInput_bounded (g : Globals) (dt : ℚ) (p : Player) (hdt : 0 ≤ dt)
    (h : VelocityBounded p) : VelocityBounded (handleMovementInput g dt p).1 :=
  inputStage_bounded _ _ (fun q hq => moveDown_bounded dt q hdt hq) _
    (inputStage_bounded _ _ (fun q hq => moveUp_bounded dt q hdt hq) _
      (inputStage_bounded _ _ (fun q hq => moveRight_bounded dt q hdt hq) _
        (inputStage_bounded _ _ (fun q hq => moveLeft_bounded dt q hdt hq) (p, false) h)))

theorem decelerateAxis_bounded (dt v : ℚ) (hdt : 0 ≤ dt) (h1 : -maxSpeed ≤ v)
    (h2 : v ≤ maxSpeed) :
    -maxSpeed ≤ decelerateAxis dt v ∧ decelerateAxis dt v ≤ maxSpeed := by
  have ha : 0 ≤ f32 (deceleration * dt) :=
    f32_speed_step_nonneg _ _ (by norm_num [deceleration]) hdt
  have hdown : f32 (v - f32 (deceleration * dt)) ≤ maxSpeed :=
    f32_le_of_le _ _ isF32_maxSpeed (by linarith)
  have hup : -maxSpeed ≤ f32 (v + f32 (deceleration * dt)) :=
    le_f32_of_le _ _ isF32_neg_maxSpeed (by linarith)
  have hm : (0 : ℚ) ≤ maxSpeed := by norm_num [maxSpeed]
  unfold decelerateAxis
  constructor <;> simp only <;> split_ifs <;> linarith

theorem decelerate_bounded (g : Globals) (dt : ℚ) (p : Player) (hdt : 0 ≤ dt)
    (h : VelocityBounded p) : VelocityBounded (decelerate g dt p) := by
  obtain ⟨h1, h2, h3, h4⟩ := h
  have hx := decelerateAxis_bounded dt p.velocity_.x hdt h1 h2
  have hy := decelerateAxis_bounded dt p.velocity_.y hdt h3 h4
  unfold decelerate VelocityBounded
  cases g.g_move_left <;> cases g.g_move_right <;> cases g.g_move_up <;>
    cases g.g_move_down <;> simp [h1, h2, h3, h4, hx, hy]

theorem deriveState_velocity (b : Bool) (p : Player) :
    (deriveState b p).velocity_ = p.velocity_ := by
  unfold deriveState
  cases p.is_parrying_ <;> cases b <;> simp <;> split_ifs <;> rfl

theorem advanceFrame_velocity (dt : ℚ) (p : Player) :
    (advanceFrame dt p).velocity_ = p.velocity_ := by
  unfold advanceFrame
  simp only
  split_ifs <;> rfl

theorem updateParryTimer_velocity (dt : ℚ) (p : Player) :
    (updateParryTimer dt p).velocity_ = p.velocity_ := by
  unfold updateParryTimer
  split_ifs <;> rfl

theorem Update_bounded (env : Env) (g : Globals) (p : Player) (dt : ℚ) (hdt : 0 ≤ dt)
    (h : VelocityBounded p) : VelocityBounded (p.Update env g dt) := by
  have h1 := decelerate_bounded g dt _ hdt (handleMovementInput_bounded g dt p hdt h)
  rw [Update_eq]
  unfold VelocityBounded at h1 ⊢
  simpa [clampToWindow, updateParryTimer_velocity, advanceFrame_velocity, deriveState_velocity,
    integrate] using h1

theorem runUpdates_bounded (env : Env) (ticks : List (Globals × ℚ)) :
    ∀ p : Player, VelocityBounded p → (∀ t ∈ ticks, 0 ≤ t.2) →
      VelocityBounded (runUpdates env p ticks) := by
  induction ticks with
  | nil => intro p h _; exact h
  | cons t ticks ih =>
    intro p h hpos
    obtain ⟨g, dt⟩ := t
    simp only [runUpdates]
    apply ih
    · exact Update_bounded env g p dt (hpos (g, dt) (List.mem_cons_self _ _)) h
    · intro t ht
      exact hpos t (List.mem_cons_of_mem _ ht)

/-- C2: starting from a freshly constructed player, after each call of a run of
`Update` calls with non-negative `deltaTime` and arbitrary directional flags
(opposite directions together included), the velocity is at most 500 in
absolute value on each axis. -/
theorem velocity_within_max_speed (env : Env) (shared_animations_ : PlayerState → Animation)
    (ticks : List (Globals × ℚ)) (hdt : ∀ t ∈ ticks, 0 ≤ t.2) (n : Nat) :
    |(runUpdates env (Player.new env shared_animations_) (ticks.take n)).velocity_.x| ≤ 500 ∧
    |(runUpdates env (Player.new env shared_animations_) (ticks.take n)).velocity_.y| ≤ 500 := by
  have h0 : VelocityBounded (Player.new env shared_animations_) := by
    simp [VelocityBounded, Player.new, maxSpeed]
  have h := runUpdates_bounded env (ticks.take n) _ h0
    (fun t ht => hdt t (List.mem_of_mem_take ht))
  unfold VelocityBounded maxSpeed at h
  exact ⟨abs_le.mpr ⟨h.1, h.2.1⟩, abs_le.mpr ⟨h.2.2.1, h.2.2.2⟩⟩


/-- Witness for C2: three ticks, the first with left and right held together. -/
theorem velocity_within_max_speed_witness :
    (∀ t ∈ sampleTicks, 0 ≤ t.2) ∧
    |(runUpdates sampleEnv (Player.new sampleEnv sampleAnimations)
        (sampleTicks.take 3)).velocity_.x| ≤ 500 ∧
    |(runUpdates sampleEnv (Player.new sampleEnv sampleAnimations)
        (sampleTicks.take 3)).velocity_.y| ≤ 500 :=
  ⟨by simp [sampleTicks],
   velocity_within_max_speed sampleEnv sampleAnimations sampleTicks (by simp [sampleTicks]) 3⟩

/-! ## The scan for the closest monster -/

theorem range_lt_FLT_MAX : parryDistance * parryDistance < FLT_MAX * FLT_MAX := by
  norm_num [parryDistance, FLT_MAX]

theorem scanInv_step (p : Player) (pre : List Monster) (m : Monster)
    (acc : Option (Nat × Monster) × Int) (h : ScanInv p pre acc) :
    ScanInv p (pre ++ [m])
      (if distSq p m ≤ parryDistance * parryDistance ∧ distSq p m < acc.2 then
        (some (pre.length, m), distSq p m) else acc) := by
  obtain ⟨c, d⟩ := acc
  have hR := range_lt_FLT_MAX
  cases c with
  | none =>
    simp only [ScanInv] at h
    obtain ⟨hd, hfar⟩ := h
    split_ifs with hc
    · simp only [ScanInv]
      refine ⟨by simp, trivial, hc.1, ?_, ?_⟩
      · intro m' hm'
        rcases List.mem_append.mp hm' with hm' | hm'
        · have := hfar m' hm'
          omega
        · simp only [List.mem_singleton] at hm'
          subst hm'
          exact le_refl _
      · intro j m' hj hjm
        rw [List.getElem?_append_left hj] at hjm
        have := hfar m' (List.getElem?_mem hjm)
        omega
    · simp only [ScanInv]
      refine ⟨hd, ?_⟩
      intro m' hm'
      rcases List.mem_append.mp hm' with hm' | hm'
      · exact hfar m' hm'
      · simp only [List.mem_singleton] at hm'
        subst hm'
        simp only [not_and_or, not_le, not_lt] at hc
        rcases hc with hc | hc
        · exact hc
        · omega
  | some kt =>
    obtain ⟨k, t⟩ := kt
    simp only [ScanInv] at h
    obtain ⟨hk, hdt, hdR, hmin, hfirst⟩ := h
    have hklt : k < pre.length := by
      by_contra hcon
      rw [List.getElem?_eq_none (by omega)] at hk
      exact Option.noConfusion hk
    split_ifs with hc
    · simp only [ScanInv]
      refine ⟨by simp, trivial, hc.1, ?_, ?_⟩
      · intro m' hm'
        rcases List.mem_append.mp hm' with hm' | hm'
        · have := hmin m' hm'
          have := hc.2
          omega
        · simp only [List.mem_singleton] at hm'
          subst hm'
          exact le_refl _
      · intro j m' hj hjm
        rw [List.getElem?_append_left hj] at hjm
        have := hmin m' (List.getElem?_mem hjm)
        have := hc.2
        omega
    · simp only [ScanInv]
      refine ⟨?_, hdt, hdR, ?_, ?_⟩
      · rw [List.getElem?_append_left hklt]
        exact hk
      · intro m' hm'
        rcases List.mem_append.mp hm' with hm' | hm'
        · exact hmin m' hm'
        · simp only [List.mem_singleton] at hm'
          subst hm'
          simp only [not_and_or, not_le, not_lt] at hc
          rcases hc with hc | hc <;> omega
      · intro j m' hj hjm
        rw [List.getElem?_append_left (by omega)] at hjm
        exact hfirst j m' hj hjm

theorem scanMonsters_inv (p : Player) (ms : List Monster) :
    ∀ (pre : List Monster) (acc : Option (Nat × Monster) × Int), ScanInv p pre acc →
      ScanInv p (pre ++ ms) (scanMonsters p ms pre.length acc) := by
  induction ms with
  | nil =>
    intro pre acc h
    simpa [scanMonsters] using h
  | cons m rest ih =>
    intro pre acc h
    obtain ⟨c, d⟩ := acc
    have hstep := scanInv_step p pre m (c, d) h
    have hnext := ih (pre ++ [m]) _ hstep
    simp only [List.length_append, List.length_singleton, List.append_assoc,
      List.singleton_append] at hnext
    simp only [scanMonsters]
    split_ifs with hc
    · simpa [hc] using hnext
    · simpa [hc] using hnext

theorem findClosest_inv (p : Player) (monsters : List Monster) :
    ScanInv p monsters (scanMonsters p monsters 0 (none, FLT_MAX * FLT_MAX)) := by
  have h0 : ScanInv p [] (none, FLT_MAX * FLT_MAX) := by simp [ScanInv]
  simpa using scanMonsters_inv p monsters [] _ h0


theorem distSq_nonneg (p : Player) (m : Monster) : 0 ≤ distSq p m := by
  unfold distSq
  exact add_nonneg (mul_self_nonneg _) (mul_self_nonneg _)

/-- The Euclidean distance is within the parry range exactly when its square is
at most `parryDistance * parryDistance`. -/
theorem sqrt_distSq_le_iff (p : Player) (m : Monster) :
    Real.sqrt ((distSq p m : Int) : ℝ) ≤ 1000 ↔ distSq p m ≤ parryDistance * parryDistance := by
  rw [Real.sqrt_le_iff]
  constructor
  · rintro ⟨_, h⟩
    have h2 : ((distSq p m : Int) : ℝ) ≤ ((1000 * 1000 : Int) : ℝ) := by
      push_cast
      linarith
    exact Int.cast_le.mp h2
  · intro h
    refine ⟨by norm_num, ?_⟩
    have h2 : ((distSq p m : Int) : ℝ) ≤ ((parryDistance * parryDistance : Int) : ℝ) :=
      Int.cast_le.mpr h
    simp only [parryDistance] at h2
    push_cast at h2
    linarith

theorem sqrt_distSq_le_sqrt_iff (p : Player) (m t : Monster) :
    Real.sqrt ((distSq p t : Int) : ℝ) ≤ Real.sqrt ((distSq p m : Int) : ℝ) ↔
      distSq p t ≤ distSq p m := by
  rw [Real.sqrt_le_sqrt_iff (by exact_mod_cast distSq_nonneg p m)]
  exact Int.cast_le

theorem sqrt_distSq_lt_sqrt_iff (p : Player) (m t : Monster) :
    Real.sqrt ((distSq p t : Int) : ℝ) < Real.sqrt ((distSq p m : Int) : ℝ) ↔
      distSq p t < distSq p m := by
  rw [Real.sqrt_lt_sqrt_iff (by exact_mod_cast distSq_nonneg p t)]
  exact Int.cast_lt

theorem findClosest_none_of_far (p : Player) (monsters : List Monster)
    (h : ∀ m ∈ monsters, parryDistance * parryDistance < distSq p m) :
    findClosest p monsters = none := by
  have hinv := findClosest_inv p monsters
  unfold findClosest
  generalize scanMonsters p monsters 0 (none, FLT_MAX * FLT_MAX) = r at hinv ⊢
  obtain ⟨c, d⟩ := r
  cases c with
  | none => rfl
  | some kt =>
    obtain ⟨k, t⟩ := kt
    simp only [ScanInv] at hinv
    obtain ⟨hk, hdt, hdR, _, _⟩ := hinv
    have := h t (List.getElem?_mem hk)
    omega

theorem findClosest_some_spec (p : Player) (monsters : List Monster) (i : Nat) (t : Monster)
    (h : findClosest p monsters = some (i, t)) :
    monsters[i]? = some t ∧ distSq p t ≤ parryDistance * parryDistance ∧
    (∀ m ∈ monsters, distSq p t ≤ distSq p m) ∧
    (∀ j m, j < i → monsters[j]? = some m → distSq p t < distSq p m) := by
  have hinv := findClosest_inv p monsters
  unfold findClosest at h
  generalize scanMonsters p monsters 0 (none, FLT_MAX * FLT_MAX) = r at hinv h
  obtain ⟨c, d⟩ := r
  simp only at h
  subst h
  simp only [ScanInv] at hinv
  obtain ⟨hk, hdt, hdR, hmin, hfirst⟩ := hinv
  rw [hdt]
  exact ⟨hk, hdR, hmin, hfirst⟩

theorem findClosest_some_of_near (p : Player) (monsters : List Monster)
    (h : ∃ m ∈ monsters, distSq p m ≤ parryDistance * parryDistance) :
    ∃ i t, findClosest p monsters = some (i, t) := by
  have hinv := findClosest_inv p monsters
  unfold findClosest
  generalize scanMonsters p monsters 0 (none, FLT_MAX * FLT_MAX) = r at hinv ⊢
  obtain ⟨c, d⟩ := r
  cases c with
  | none =>
    simp only [ScanInv] at hinv
    obtain ⟨m, hm, hmR⟩ := h
    have := hinv.2 m hm
    omega
  | some kt => exact ⟨kt.1, kt.2, rfl⟩

/-! ## Parry: no-op cases and target choice -/

/-- C3: `PerformParry` changes nothing (timer, parrying flag, player position,
kill counter, every monster and the collection itself) whenever the parry timer
is positive or no monster is within the parry range, distance at most 1000 from
the player position. -/
theorem performParry_noop (env : Env) (x y : Int) (w : World)
    (h : 0 < w.player.parry_timer_ ∨
      ∀ m ∈ w.monsters, ¬ Real.sqrt ((distSq w.player m : Int) : ℝ) ≤ 1000) :
    PerformParry env x y w = w := by
  unfold PerformParry
  rcases h with h | h
  · rw [if_neg (not_le.mpr h)]
  · have hfar : ∀ m ∈ w.monsters, parryDistance * parryDistance < distSq w.player m := by
      intro m hm
      have := h m hm
      rw [sqrt_distSq_le_iff] at this
      exact not_le.mp this
    rw [findClosest_none_of_far _ _ hfar]
    split_ifs <;> rfl

/-- Witness for C3: the only monster is 1200 away from the player. -/
theorem performParry_noop_witness :
    (0 < sampleFarWorld.player.parry_timer_ ∨
      ∀ m ∈ sampleFarWorld.monsters,
        ¬ Real.sqrt ((distSq sampleFarWorld.player m : Int) : ℝ) ≤ 1000) ∧
    PerformParry sampleEnv 10 20 sampleFarWorld = sampleFarWorld :=
  have h : 0 < sampleFarWorld.player.parry_timer_ ∨
      ∀ m ∈ sampleFarWorld.monsters,
        ¬ Real.sqrt ((distSq sampleFarWorld.player m : Int) : ℝ) ≤ 1000 :=
    Or.inr (by
      intro m hm
      simp only [sampleFarWorld, List.mem_singleton] at hm
      subst hm
      rw [sqrt_distSq_le_iff]
      decide)
  ⟨h, performParry_noop sampleEnv 10 20 sampleFarWorld h⟩

/-- C4: when the parry timer is at or below zero and some monster is within the
parry range, `PerformParry` acts on a target that is an entry of the collection
at Euclidean distance at most 1000 from the player position, such that no
monster of the collection is strictly closer, and every monster before it in
the collection is strictly farther: among the monsters at the minimal distance
it is the first. -/
theorem parry_target_first_closest (env : Env) (x y : Int) (w : World)
    (ht : w.player.parry_timer_ ≤ 0)
    (hex : ∃ m ∈ w.monsters, Real.sqrt ((distSq w.player m : Int) : ℝ) ≤ 1000) :
    ∃ i t, findClosest w.player w.monsters = some (i, t) ∧
      PerformParry env x y w = applyParry env x y w i t ∧
      w.monsters[i]? = some t ∧
      Real.sqrt ((distSq w.player t : Int) : ℝ) ≤ 1000 ∧
      (∀ m ∈ w.monsters,
        Real.sqrt ((distSq w.player t : Int) : ℝ) ≤ Real.sqrt ((distSq w.player m : Int) : ℝ)) ∧
      (∀ j m, j < i → w.monsters[j]? = some m →
        Real.sqrt ((distSq w.player t : Int) : ℝ) < Real.sqrt ((distSq w.player m : Int) : ℝ)) := by
  have hnear : ∃ m ∈ w.monsters, distSq w.player m ≤ parryDistance * parryDistance := by
    obtain ⟨m, hm, hd⟩ := hex
    exact ⟨m, hm, (sqrt_distSq_le_iff _ _).mp hd⟩
  obtain ⟨i, t, hfc⟩ := findClosest_some_of_near _ _ hnear
  obtain ⟨hi, hR, hmin, hfirst⟩ := findClosest_some_spec _ _ i t hfc
  refine ⟨i, t, hfc, ?_, hi, (sqrt_distSq_le_iff _ _).mpr hR, ?_, ?_⟩
  · unfold PerformParry
    rw [if_pos ht, hfc]
  · intro m hm
    exact (sqrt_distSq_le_sqrt_iff _ _ _).mpr (hmin m hm)
  · intro j m hj hjm
    exact (sqrt_distSq_lt_sqrt_iff _ _ _).mpr (hfirst j m hj hjm)


/-- Witness for C4: the example player between a monster at distance 500 and
one at distance 1200. -/
theorem parry_target_first_closest_witness :
    (sampleWorld.player.parry_timer_ ≤ 0 ∧
      ∃ m ∈ sampleWorld.monsters, Real.sqrt ((distSq sampleWorld.player m : Int) : ℝ) ≤ 1000) ∧
    ∃ i t, findClosest sampleWorld.player sampleWorld.monsters = some (i, t) ∧
      PerformParry sampleEnv 10 20 sampleWorld = applyParry sampleEnv 10 20 sampleWorld i t ∧
      sampleWorld.monsters[i]? = some t ∧
      Real.sqrt ((distSq sampleWorld.player t : Int) : ℝ) ≤ 1000 ∧
      (∀ m ∈ sampleWorld.monsters,
        Real.sqrt ((distSq sampleWorld.player t : Int) : ℝ) ≤
          Real.sqrt ((distSq sampleWorld.player m : Int) : ℝ)) ∧
      (∀ j m, j < i → sampleWorld.monsters[j]? = some m →
        Real.sqrt ((distSq sampleWorld.player t : Int) : ℝ) <
          Real.sqrt ((distSq sampleWorld.player m : Int) : ℝ)) :=
  have ht : sampleWorld.player.parry_timer_ ≤ 0 := le_refl _
  have hex : ∃ m ∈ sampleWorld.monsters,
      Real.sqrt ((distSq sampleWorld.player m : Int) : ℝ) ≤ 1000 :=
    ⟨{ kind := MonsterKind.Moving, x := 700, y := 700, health := 2 },
     by simp [sampleWorld, sampleMonsters],
     (sqrt_distSq_le_iff _ _).mpr (by decide)⟩
  ⟨⟨ht, hex⟩, parry_target_first_closest sampleEnv 10 20 sampleWorld ht hex⟩

/-! ## Parry: damage, removal and replacement -/

theorem eraseIdx_set_self {α : Type} (l : List α) (i : Nat) (a : α) :
    (l.set i a).eraseIdx i = l.eraseIdx i := by
  induction l generalizing i with
  | nil => rfl
  | cons b l ih =>
    cases i with
    | zero => rfl
    | succ i => simp [List.set, List.eraseIdx, ih]

theorem findClosest_index_lt (p : Player) (monsters : List Monster) (i : Nat) (t : Monster)
    (h : findClosest p monsters = some (i, t)) : i < monsters.length := by
  have hi := (findClosest_some_spec p monsters i t h).1
  by_contra hcon
  rw [List.getElem?_eq_none (by omega)] at hi
  exact Option.noConfusion hi

theorem performParry_eq_applyParry (env : Env) (x y : Int) (w : World) (i : Nat) (t : Monster)
    (ht : w.player.parry_timer_ ≤ 0) (hfc : findClosest w.player w.monsters = some (i, t)) :
    PerformParry env x y w = applyParry env x y w i t := by
  unfold PerformParry
  rw [if_pos ht, hfc]

/-- The collection after a parry that leaves its target alive. -/
theorem applyParry_monsters_alive (env : Env) (x y : Int) (w : World) (i : Nat) (t : Monster)
    (h : env.IsDead { t with health := t.health - 1 } = false) :
    (applyParry env x y w i t).monsters = w.monsters.set i { t with health := t.health - 1 } ∧
    (applyParry env x y w i t).globals = w.globals := by
  simp [applyParry, Monster.SetHealth, Monster.GetHealth, h]

/-- The collection and the kill counter after a parry that kills its target. -/
theorem applyParry_monsters_dead (env : Env) (x y : Int) (w : World) (i : Nat) (t : Monster)
    (hi : i < w.monsters.length)
    (h : env.IsDead { t with health := t.health - 1 } = true) :
    (applyParry env x y w i t).monsters =
      (if (w.monsters.eraseIdx i).length < 7 then
        (if (w.monsters.eraseIdx i).length % 2 = 0 then
          w.monsters.eraseIdx i ++ [MovingMonster env x y]
        else w.monsters.eraseIdx i ++ [RangedMonster env x y])
      else w.monsters.eraseIdx i) ∧
    (applyParry env x y w i t).globals.g_kill_count = w.globals.g_kill_count + 1 := by
  simp only [applyParry, Monster.SetHealth, Monster.GetHealth, h, if_true, removeDead,
    List.length_set, hi, eraseIdx_set_self]
  constructor
  · split_ifs <;> rfl
  · split_ifs <;> rfl


/-- C5: a successful parry lowers the health of the selected target by exactly
1 and leaves every other monster as it was: a surviving target stays in place
with its health reduced, and when the target dies the collection is the old one
without the target, followed by at most one new monster.  In particular with a
monster at distance 500 and another at distance 1200 only the first one is
damaged. -/
theorem parry_damages_only_target (env : Env) (x y : Int) (w : World) (i : Nat) (t : Monster)
    (ht : w.player.parry_timer_ ≤ 0) (hfc : findClosest w.player w.monsters = some (i, t)) :
    (env.IsDead { t with health := t.health - 1 } = false →
      (PerformParry env x y w).monsters =
        w.monsters.set i { t with health := t.health - 1 }) ∧
    (env.IsDead { t with health := t.health - 1 } = true →
      ∃ extra : List Monster, extra.length ≤ 1 ∧
        (PerformParry env x y w).monsters = w.monsters.eraseIdx i ++ extra) ∧
    (∀ h1 h2 : Int,
      (PerformParry env x y
        { player := samplePlayer
          globals := sampleGlobals
          monsters := [{ kind := MonsterKind.Moving, x := 700, y := 700, health := h1 },
                       { kind := MonsterKind.Ranged, x := 1600, y := 300, health := h2 }] }).monsters =
      if env.IsDead { kind := MonsterKind.Moving, x := 700, y := 700, health := h1 - 1 } then
        [{ kind := MonsterKind.Ranged, x := 1600, y := 300, health := h2 },
         RangedMonster env x y]
      else
        [{ kind := MonsterKind.Moving, x := 700, y := 700, health := h1 - 1 },
         { kind := MonsterKind.Ranged, x := 1600, y := 300, health := h2 }]) := by
  have hi := findClosest_index_lt _ _ i t hfc
  rw [performParry_eq_applyParry env x y w i t ht hfc]
  refine ⟨fun h => (applyParry_monsters_alive env x y w i t h).1, ?_, ?_⟩
  · intro h
    rw [(applyParry_monsters_dead env x y w i t hi h).1]
    split_ifs
    · exact ⟨[MovingMonster env x y], by simp, rfl⟩
    · exact ⟨[RangedMonster env x y], by simp, rfl⟩
    · exact ⟨[], by simp, by simp⟩
  · intro h1 h2
    have hsel : findClosest samplePlayer
        [{ kind := MonsterKind.Moving, x := 700, y := 700, health := h1 },
         { kind := MonsterKind.Ranged, x := 1600, y := 300, health := h2 }] =
        some (0, { kind := MonsterKind.Moving, x := 700, y := 700, health := h1 }) := by
      simp [findClosest, scanMonsters, distSq, Monster.getX, Monster.getY, samplePlayer,
        Player.new, sampleEnv, parryDistance, FLT_MAX, Int.tdiv]
    have htimer : samplePlayer.parry_timer_ ≤ 0 := le_refl _
    rw [performParry_eq_applyParry env x y
      { player := samplePlayer
        globals := sampleGlobals
        monsters := [{ kind := MonsterKind.Moving, x := 700, y := 700, health := h1 },
                     { kind := MonsterKind.Ranged, x := 1600, y := 300, health := h2 }] }
      0 { kind := MonsterKind.Moving, x := 700, y := 700, health := h1 } htimer hsel]
    cases hd : env.IsDead { kind := MonsterKind.Moving, x := 700, y := 700, health := h1 - 1 }
    · rw [(applyParry_monsters_alive env x y _ 0 _ hd).1]
      simp
    · rw [(applyParry_monsters_dead env x y _ 0 _ (by simp) hd).1]
      simp


/-- Witness for C5: the target at distance 500 goes from health 2 to 1, the
monster at distance 1200 is untouched. -/
theorem parry_damages_only_target_witness :
    sampleWorld.player.parry_timer_ ≤ 0 ∧
    findClosest sampleWorld.player sampleWorld.monsters =
      some (0, { kind := MonsterKind.Moving, x := 700, y := 700, health := 2 }) ∧
    (PerformParry sampleEnv 10 20 sampleWorld).monsters =
      [{ kind := MonsterKind.Moving, x := 700, y := 700, health := 1 },
       { kind := MonsterKind.Ranged, x := 1600, y := 300, health := 2 }] :=
  have ht : sampleWorld.player.parry_timer_ ≤ 0 := le_refl _
  have hfc : findClosest sampleWorld.player sampleWorld.monsters =
      some (0, { kind := MonsterKind.Moving, x := 700, y := 700, health := 2 }) := by
    simp [findClosest, scanMonsters, distSq, Monster.getX, Monster.getY, sampleWorld,
      sampleMonsters, samplePlayer, Player.new, sampleEnv, parryDistance, FLT_MAX, Int.tdiv]
  ⟨ht, hfc, (parry_damages_only_target sampleEnv 10 20 sampleWorld 0 _ ht hfc).1 (by decide)⟩

/-- C6: when the parry target has health 1, `IsDead` means health at or below
zero, and the collection holds fewer than the maximum of 7 monsters, then after
`PerformParry` the target is gone from the collection, the kill counter is one
higher, exactly one new monster stands at the end of the collection, and the
collection has the size it had before the call. -/
theorem parry_kill_respawns (env : Env) (x y : Int) (w : World) (i : Nat) (t : Monster)
    (ht : w.player.parry_timer_ ≤ 0) (hfc : findClosest w.player w.monsters = some (i, t))
    (hone : t.health = 1) (hdead : ∀ m : Monster, env.IsDead m = true ↔ m.health ≤ 0)
    (hsize : w.monsters.length < 7) :
    (∃ replacement : Monster,
      (replacement = MovingMonster env x y ∨ replacement = RangedMonster env x y) ∧
      (PerformParry env x y w).monsters = w.monsters.eraseIdx i ++ [replacement]) ∧
    (PerformParry env x y w).globals.g_kill_count = w.globals.g_kill_count + 1 ∧
    (PerformParry env x y w).monsters.length = w.monsters.length := by
  have hi := findClosest_index_lt _ _ i t hfc
  have hd : env.IsDead { t with health := t.health - 1 } = true := by
    rw [hdead]
    simp [hone]
  have hlen : (w.monsters.eraseIdx i).length = w.monsters.length - 1 :=
    List.length_eraseIdx_of_lt hi
  have hlt : (w.monsters.eraseIdx i).length < 7 := by omega
  obtain ⟨hm, hk⟩ := applyParry_monsters_dead env x y w i t hi hd
  rw [performParry_eq_applyParry env x y w i t ht hfc, hm, if_pos hlt]
  refine ⟨?_, hk, ?_⟩
  · split_ifs
    · exact ⟨_, Or.inl rfl, rfl⟩
    · exact ⟨_, Or.inr rfl, rfl⟩
  · split_ifs <;> simp [hlen] <;> omega

/-- Witness for C6: the target at distance 500 has one health point; it is
replaced by a new monster at the drawn position (10, 20). -/
theorem parry_kill_respawns_witness :
    (sampleWeakWorld.player.parry_timer_ ≤ 0 ∧
      findClosest sampleWeakWorld.player sampleWeakWorld.monsters =
        some (0, { kind := MonsterKind.Moving, x := 700, y := 700, health := 1 }) ∧
      (∀ m : Monster, sampleEnv.IsDead m = true ↔ m.health ≤ 0) ∧
      sampleWeakWorld.monsters.length < 7) ∧
    ((∃ replacement : Monster,
      (replacement = MovingMonster sampleEnv 10 20 ∨
        replacement = RangedMonster sampleEnv 10 20) ∧
      (PerformParry sampleEnv 10 20 sampleWeakWorld).monsters =
        sampleWeakWorld.monsters.eraseIdx 0 ++ [replacement]) ∧
    (PerformParry sampleEnv 10 20 sampleWeakWorld).globals.g_kill_count =
      sampleWeakWorld.globals.g_kill_count + 1 ∧
    (PerformParry sampleEnv 10 20 sampleWeakWorld).monsters.length =
      sampleWeakWorld.monsters.length) :=
  have ht : sampleWeakWorld.player.parry_timer_ ≤ 0 := le_refl _
  have hfc : findClosest sampleWeakWorld.player sampleWeakWorld.monsters =
      some (0, { kind := MonsterKind.Moving, x := 700, y := 700, health := 1 }) := by
    simp [findClosest, scanMonsters, distSq, Monster.getX, Monster.getY, sampleWeakWorld,
      sampleWeakMonsters, samplePlayer, Player.new, sampleEnv, parryDistance, FLT_MAX, Int.tdiv]
  have hdead : ∀ m : Monster, sampleEnv.IsDead m = true ↔ m.health ≤ 0 := by
    intro m
    simp [sampleEnv]
  have hsize : sampleWeakWorld.monsters.length < 7 := by decide
  ⟨⟨ht, hfc, hdead, hsize⟩,
   parry_kill_respawns sampleEnv 10 20 sampleWeakWorld 0 _ ht hfc rfl hdead hsize⟩


theorem findClosest_sampleFullWorld :
    findClosest sampleFullWorld.player sampleFullWorld.monsters =
      some (0, { kind := MonsterKind.Moving, x := 700, y := 700, health := 1 }) := by
  simp [findClosest, scanMonsters, distSq, Monster.getX, Monster.getY, sampleFullWorld,
    samplePlayer, Player.new, sampleEnv, parryDistance, FLT_MAX, Int.tdiv]

theorem findClosest_sampleTutorialWorld :
    findClosest sampleTutorialWorld.player sampleTutorialWorld.monsters =
      some (0, { kind := MonsterKind.Moving, x := 700, y := 700, health := 1 }) := by
  simp [findClosest, scanMonsters, distSq, Monster.getX, Monster.getY, sampleTutorialWorld,
    samplePlayer, Player.new, sampleEnv, parryDistance, FLT_MAX, Int.tdiv]

theorem findClosest_sampleCrowdedWorld :
    findClosest sampleCrowdedWorld.player sampleCrowdedWorld.monsters =
      some (0, { kind := MonsterKind.Moving, x := 700, y := 700, health := 1 }) := by
  simp [findClosest, scanMonsters, distSq, Monster.getX, Monster.getY, sampleCrowdedWorld,
    samplePlayer, Player.new, sampleEnv, parryDistance, FLT_MAX, Int.tdiv]

/-- Counterexample to C7 as stated: with exactly 7 monsters in the collection
(the bound `PerformParry` tests against), and equally with exactly 3 (the
`maxMonsters` of the tutorial scene), a parry that kills its target appends a
replacement, and the collection has the same size after the call as before. -/
theorem parry_at_max_size_respawns :
    (sampleFullWorld.monsters.length = 7 ∧
      sampleFullWorld.player.parry_timer_ ≤ 0 ∧
      findClosest sampleFullWorld.player sampleFullWorld.monsters =
        some (0, { kind := MonsterKind.Moving, x := 700, y := 700, health := 1 }) ∧
      sampleEnv.IsDead { kind := MonsterKind.Moving, x := 700, y := 700, health := 1 - 1 } = true ∧
      (PerformParry sampleEnv 10 20 sampleFullWorld).monsters =
        sampleFullWorld.monsters.eraseIdx 0 ++ [MovingMonster sampleEnv 10 20] ∧
      (PerformParry sampleEnv 10 20 sampleFullWorld).monsters.length = 7) ∧
    (sampleTutorialWorld.monsters.length = 3 ∧
      sampleTutorialWorld.player.parry_timer_ ≤ 0 ∧
      findClosest sampleTutorialWorld.player sampleTutorialWorld.monsters =
        some (0, { kind := MonsterKind.Moving, x := 700, y := 700, health := 1 }) ∧
      (PerformParry sampleEnv 10 20 sampleTutorialWorld).monsters =
        sampleTutorialWorld.monsters.eraseIdx 0 ++ [MovingMonster sampleEnv 10 20] ∧
      (PerformParry sampleEnv 10 20 sampleTutorialWorld).monsters.length = 3) := by
  have hd : sampleEnv.IsDead
      { kind := MonsterKind.Moving, x := 700, y := 700, health := 1 - 1 } = true := by decide
  have h7 : (PerformParry sampleEnv 10 20 sampleFullWorld).monsters =
      sampleFullWorld.monsters.eraseIdx 0 ++ [MovingMonster sampleEnv 10 20] := by
    rw [performParry_eq_applyParry sampleEnv 10 20 sampleFullWorld 0 _ (le_refl _)
      findClosest_sampleFullWorld]
    rw [(applyParry_monsters_dead sampleEnv 10 20 sampleFullWorld 0 _ (by decide) hd).1]
    rfl
  have h3 : (PerformParry sampleEnv 10 20 sampleTutorialWorld).monsters =
      sampleTutorialWorld.monsters.eraseIdx 0 ++ [MovingMonster sampleEnv 10 20] := by
    rw [performParry_eq_applyParry sampleEnv 10 20 sampleTutorialWorld 0 _ (le_refl _)
      findClosest_sampleTutorialWorld]
    rw [(applyParry_monsters_dead sampleEnv 10 20 sampleTutorialWorld 0 _ (by decide) hd).1]
    rfl
  refine ⟨⟨rfl, le_refl _, findClosest_sampleFullWorld, hd, h7, ?_⟩,
    ⟨rfl, le_refl _, findClosest_sampleTutorialWorld, h3, ?_⟩⟩
  · rw [h7]
    rfl
  · rw [h3]
    rfl

/-- C7, amended: when the parry target dies and the collection holds more than
7 monsters before the call (so at least 7 are left once the target is removed),
`PerformParry` spawns no replacement and the collection size after the call is
the size before minus 1; with 7 monsters or fewer before the call exactly one
replacement is appended and the size is the one before the call. -/
theorem parry_kill_collection_size (env : Env) (x y : Int) (w : World) (i : Nat) (t : Monster)
    (ht : w.player.parry_timer_ ≤ 0) (hfc : findClosest w.player w.monsters = some (i, t))
    (hd : env.IsDead { t with health := t.health - 1 } = true) :
    (7 < w.monsters.length →
      (PerformParry env x y w).monsters = w.monsters.eraseIdx i ∧
      (PerformParry env x y w).monsters.length = w.monsters.length - 1) ∧
    (w.monsters.length ≤ 7 →
      (∃ replacement : Monster,
        (PerformParry env x y w).monsters = w.monsters.eraseIdx i ++ [replacement]) ∧
      (PerformParry env x y w).monsters.length = w.monsters.length) := by
  have hi := findClosest_index_lt _ _ i t hfc
  have hlen : (w.monsters.eraseIdx i).length = w.monsters.length - 1 :=
    List.length_eraseIdx_of_lt hi
  rw [performParry_eq_applyParry env x y w i t ht hfc,
    (applyParry_monsters_dead env x y w i t hi hd).1]
  constructor
  · intro h
    rw [if_neg (by omega)]
    exact ⟨rfl, hlen⟩
  · intro h
    rw [if_pos (by omega)]
    constructor
    · split_ifs
      · exact ⟨_, rfl⟩
      · exact ⟨_, rfl⟩
    · split_ifs <;> simp [hlen] <;> omega

/-- Witness for C7 amended: eight monsters, the target dies, seven are left. -/
theorem parry_kill_collection_size_witness :
    (sampleCrowdedWorld.player.parry_timer_ ≤ 0 ∧
      findClosest sampleCrowdedWorld.player sampleCrowdedWorld.monsters =
        some (0, { kind := MonsterKind.Moving, x := 700, y := 700, health := 1 }) ∧
      sampleEnv.IsDead { kind := MonsterKind.Moving, x := 700, y := 700, health := 1 - 1 } = true ∧
      7 < sampleCrowdedWorld.monsters.length) ∧
    (PerformParry sampleEnv 10 20 sampleCrowdedWorld).monsters =
      sampleCrowdedWorld.monsters.eraseIdx 0 ∧
    (PerformParry sampleEnv 10 20 sampleCrowdedWorld).monsters.length =
      sampleCrowdedWorld.monsters.length - 1 :=
  have ht : sampleCrowdedWorld.player.parry_timer_ ≤ 0 := le_refl _
  have hd : sampleEnv.IsDead
      { kind := MonsterKind.Moving, x := 700, y := 700, health := 1 - 1 } = true := by decide
  have hlen : 7 < sampleCrowdedWorld.monsters.length := by decide
  ⟨⟨ht, findClosest_sampleCrowdedWorld, hd, hlen⟩,
   (parry_kill_collection_size sampleEnv 10 20 sampleCrowdedWorld 0 _ ht
      findClosest_sampleCrowdedWorld hd).1 hlen⟩

/-- C8: when a parry kills its target and a replacement is spawned (fewer than
7 monsters are left after the removal), the replacement is decided by the parity
of the collection size after the removal: a `MovingMonster` for an even size, a
`RangedMonster` for an odd size, and never a `ChargingMonster`. -/
theorem replacement_kind_by_parity (env : Env) (x y : Int) (w : World) (i : Nat) (t : Monster)
    (ht : w.player.parry_timer_ ≤ 0) (hfc : findClosest w.player w.monsters = some (i, t))
    (hd : env.IsDead { t with health := t.health - 1 } = true)
    (hspawn : (w.monsters.eraseIdx i).length < 7) :
    ∃ replacement : Monster,
      (PerformParry env x y w).monsters = w.monsters.eraseIdx i ++ [replacement] ∧
      ((w.monsters.eraseIdx i).length % 2 = 0 → replacement = MovingMonster env x y) ∧
      ((w.monsters.eraseIdx i).length % 2 = 1 → replacement = RangedMonster env x y) ∧
      replacement.kind ≠ MonsterKind.Charging := by
  have hi := findClosest_index_lt _ _ i t hfc
  rw [performParry_eq_applyParry env x y w i t ht hfc,
    (applyParry_monsters_dead env x y w i t hi hd).1, if_pos hspawn]
  by_cases hpar : (w.monsters.eraseIdx i).length % 2 = 0
  · rw [if_pos hpar]
    refine ⟨_, rfl, fun _ => rfl, fun h => ?_, ?_⟩
    · omega
    · simp [MovingMonster]
  · rw [if_neg hpar]
    refine ⟨_, rfl, fun h => absurd h hpar, fun _ => rfl, ?_⟩
    simp [RangedMonster]

/-- Witness for C8: one monster is left after the removal, so the replacement
is a `RangedMonster`. -/
theorem replacement_kind_by_parity_witness :
    (sampleWeakWorld.player.parry_timer_ ≤ 0 ∧
      findClosest sampleWeakWorld.player sampleWeakWorld.monsters =
        some (0, { kind := MonsterKind.Moving, x := 700, y := 700, health := 1 }) ∧
      sampleEnv.IsDead { kind := MonsterKind.Moving, x := 700, y := 700, health := 1 - 1 } = true ∧
      (sampleWeakWorld.monsters.eraseIdx 0).length < 7) ∧
    ∃ replacement : Monster,
      (PerformParry sampleEnv 10 20 sampleWeakWorld).monsters =
        sampleWeakWorld.monsters.eraseIdx 0 ++ [replacement] ∧
      ((sampleWeakWorld.monsters.eraseIdx 0).length % 2 = 0 →
        replacement = MovingMonster sampleEnv 10 20) ∧
      ((sampleWeakWorld.monsters.eraseIdx 0).length % 2 = 1 →
        replacement = RangedMonster sampleEnv 10 20) ∧
      replacement.kind ≠ MonsterKind.Charging :=
  have ht : sampleWeakWorld.player.parry_timer_ ≤ 0 := le_refl _
  have hfc : findClosest sampleWeakWorld.player sampleWeakWorld.monsters =
      some (0, { kind := MonsterKind.Moving, x := 700, y := 700, health := 1 }) := by
    simp [findClosest, scanMonsters, distSq, Monster.getX, Monster.getY, sampleWeakWorld,
      sampleWeakMonsters, samplePlayer, Player.new, sampleEnv, parryDistance, FLT_MAX, Int.tdiv]
  have hd : sampleEnv.IsDead
      { kind := MonsterKind.Moving, x := 700, y := 700, health := 1 - 1 } = true := by decide
  have hspawn : (sampleWeakWorld.monsters.eraseIdx 0).length < 7 := by decide
  ⟨⟨ht, hfc, hd, hspawn⟩,
   replacement_kind_by_parity sampleEnv 10 20 sampleWeakWorld 0 _ ht hfc hd hspawn⟩


/-! ## The parry lunge and the facing direction -/

theorem truncToInt_intCast (z : Int) : truncToInt (z : ℚ) = z := by
  unfold truncToInt
  split_ifs
  · exact Int.floor_intCast z
  · have h : -(z : ℚ) = ((-z : Int) : ℚ) := by push_cast; rfl
    rw [h, Int.floor_intCast]
    omega

theorem truncToInt_add_hundred (z : Int) : truncToInt ((z : ℚ) + parry_distance) = z + 100 := by
  have h : (z : ℚ) + parry_distance = ((z + 100 : Int) : ℚ) := by
    unfold parry_distance
    push_cast
    rfl
  rw [h, truncToInt_intCast]

theorem truncToInt_sub_hundred (z : Int) : truncToInt ((z : ℚ) - parry_distance) = z - 100 := by
  have h : (z : ℚ) - parry_distance = ((z - 100 : Int) : ℚ) := by
    unfold parry_distance
    push_cast
    rfl
  rw [h, truncToInt_intCast]

theorem inputStage_direction (b : Bool) (f : Player → Player)
    (hf : ∀ q, DirectionValid (f q)) (r : Player × Bool) (h : DirectionValid r.1) :
    DirectionValid (if b = true then (f r.1, true) else r).1 := by
  cases b
  · simpa using h
  · simpa using hf _

theorem handleMovementInput_direction (g : Globals) (dt : ℚ) (p : Player)
    (h : DirectionValid p) : DirectionValid (handleMovementInput g dt p).1 :=
  inputStage_direction _ _ (fun _ => Or.inr (Or.inr (Or.inl rfl))) _
    (inputStage_direction _ _ (fun _ => Or.inl rfl) _
      (inputStage_direction _ _ (fun _ => Or.inr (Or.inl rfl)) _
        (inputStage_direction _ _ (fun _ => Or.inr (Or.inr (Or.inr rfl))) (p, false) h)))

theorem decelerate_direction (g : Globals) (dt : ℚ) (p : Player) :
    (decelerate g dt p).direction_ = p.direction_ := by
  unfold decelerate
  cases g.g_move_left <;> cases g.g_move_right <;> cases g.g_move_up <;>
    cases g.g_move_down <;> rfl

theorem deriveState_direction (b : Bool) (p : Player) :
    (deriveState b p).direction_ = p.direction_ := by
  unfold deriveState
  cases p.is_parrying_ <;> cases b <;> simp <;> split_ifs <;> rfl

theorem advanceFrame_direction (dt : ℚ) (p : Player) :
    (advanceFrame dt p).direction_ = p.direction_ := by
  unfold advanceFrame
  simp only
  split_ifs <;> rfl

theorem updateParryTimer_direction (dt : ℚ) (p : Player) :
    (updateParryTimer dt p).direction_ = p.direction_ := by
  unfold updateParryTimer
  split_ifs <;> rfl

theorem Update_direction (env : Env) (g : Globals) (p : Player) (dt : ℚ)
    (h : DirectionValid p) : DirectionValid (p.Update env g dt) := by
  have h1 := handleMovementInput_direction g dt p h
  rw [Update_eq]
  unfold DirectionValid at h1 ⊢
  simpa [clampToWindow, updateParryTimer_direction, advanceFrame_direction,
    deriveState_direction, integrate, decelerate_direction] using h1

theorem lunge_direction (p : Player) : (lunge p).direction_ = p.direction_ := by
  unfold lunge
  split_ifs <;> rfl

theorem applyParry_direction (env : Env) (x y : Int) (w : World) (i : Nat) (t : Monster) :
    (applyParry env x y w i t).player.direction_ = w.player.direction_ := by
  simp [applyParry, lunge_direction]

theorem PerformParry_direction (env : Env) (x y : Int) (w : World) :
    (PerformParry env x y w).player.direction_ = w.player.direction_ := by
  unfold PerformParry
  split_ifs
  · cases h : findClosest w.player w.monsters with
    | none => rfl
    | some it => exact applyParry_direction env x y w it.1 it.2
  · rfl

theorem HandleEvents_direction (env : Env) (x y : Int) (event : SDL_Event) (w : World) :
    (HandleEvents env x y event w).player.direction_ = w.player.direction_ := by
  unfold HandleEvents
  cases event.type <;> cases event.sym <;> simp [PerformParry_direction]

theorem reachable_direction (env : Env) (p : Player) (h : Player.Reachable env p) :
    DirectionValid p := by
  induction h with
  | construct anims => exact Or.inl rfl
  | update p g dt _ ih => exact Update_direction env g p dt ih
  | handleEvents p g monsters x y event _ ih =>
    unfold DirectionValid at ih ⊢
    rw [HandleEvents_direction]
    exact ih
  | performParry p g monsters x y _ ih =>
    unfold DirectionValid at ih ⊢
    rw [PerformParry_direction]
    exact ih

theorem applyParry_rect (env : Env) (x y : Int) (w : World) (i : Nat) (t : Monster) :
    (applyParry env x y w i t).player.rect_ =
      (lunge w.player).rect_ := by
  simp only [applyParry, lunge]
  split_ifs <;> rfl

/-- C9: in every player state reachable from construction through `Update`,
`HandleEvents` and `PerformParry` calls the facing direction is one of 0, 1, 2
and 3, and a successful parry (timer at or below zero, some monster in range;
whether or not the target dies) moves the player by exactly 100 along one axis
in the facing direction, 0 up `y - 100`, 1 right `x + 100`, 2 down `y + 100`,
3 left `x - 100`, and leaves the other coordinate unchanged. -/
theorem parry_lunge_in_facing_direction (env : Env) (p : Player)
    (hr : Player.Reachable env p) (g : Globals) (monsters : List Monster) (x y : Int)
    (ht : p.parry_timer_ ≤ 0)
    (hex : ∃ m ∈ monsters, Real.sqrt ((distSq p m : Int) : ℝ) ≤ 1000) :
    (p.direction_ = 0 ∨ p.direction_ = 1 ∨ p.direction_ = 2 ∨ p.direction_ = 3) ∧
    (p.direction_ = 0 →
      (PerformParry env x y { player := p, globals := g, monsters := monsters }).player.rect_.x
        = p.rect_.x ∧
      (PerformParry env x y { player := p, globals := g, monsters := monsters }).player.rect_.y
        = p.rect_.y - 100) ∧
    (p.direction_ = 1 →
      (PerformParry env x y { player := p, globals := g, monsters := monsters }).player.rect_.x
        = p.rect_.x + 100 ∧
      (PerformParry env x y { player := p, globals := g, monsters := monsters }).player.rect_.y
        = p.rect_.y) ∧
    (p.direction_ = 2 →
      (PerformParry env x y { player := p, globals := g, monsters := monsters }).player.rect_.x
        = p.rect_.x ∧
      (PerformParry env x y { player := p, globals := g, monsters := monsters }).player.rect_.y
        = p.rect_.y + 100) ∧
    (p.direction_ = 3 →
      (PerformParry env x y { player := p, globals := g, monsters := monsters }).player.rect_.x
        = p.rect_.x - 100 ∧
      (PerformParry env x y { player := p, globals := g, monsters := monsters }).player.rect_.y
        = p.rect_.y) := by
  have hnear : ∃ m ∈ monsters, distSq p m ≤ parryDistance * parryDistance := by
    obtain ⟨m, hm, hd⟩ := hex
    exact ⟨m, hm, (sqrt_distSq_le_iff _ _).mp hd⟩
  obtain ⟨i, t, hfc⟩ := findClosest_some_of_near _ _ hnear
  rw [performParry_eq_applyParry env x y { player := p, globals := g, monsters := monsters }
    i t ht hfc, applyParry_rect]
  refine ⟨reachable_direction env p hr, ?_, ?_, ?_, ?_⟩ <;> intro hdir <;>
    simp [lunge, hdir, truncToInt_add_hundred, truncToInt_sub_hundred]

/-- Witness for C9: the freshly constructed player faces up (direction 0); a
parry next to a monster takes it from (400, 300) to (400, 200). -/
theorem parry_lunge_in_facing_direction_witness :
    (Player.Reachable sampleEnv samplePlayer ∧ samplePlayer.parry_timer_ ≤ 0 ∧
      ∃ m ∈ sampleMonsters, Real.sqrt ((distSq samplePlayer m : Int) : ℝ) ≤ 1000) ∧
    samplePlayer.direction_ = 0 ∧
    (PerformParry sampleEnv 10 20
      { player := samplePlayer, globals := sampleGlobals, monsters := sampleMonsters }).player.rect_.x
      = 400 ∧
    (PerformParry sampleEnv 10 20
      { player := samplePlayer, globals := sampleGlobals, monsters := sampleMonsters }).player.rect_.y
      = 200 :=
  have hr : Player.Reachable sampleEnv samplePlayer :=
    Player.Reachable.construct sampleAnimations
  have ht : samplePlayer.parry_timer_ ≤ 0 := le_refl _
  have hex : ∃ m ∈ sampleMonsters, Real.sqrt ((distSq samplePlayer m : Int) : ℝ) ≤ 1000 :=
    ⟨{ kind := MonsterKind.Moving, x := 700, y := 700, health := 2 },
     by simp [sampleMonsters],
     (sqrt_distSq_le_iff _ _).mpr (by decide)⟩
  ⟨⟨hr, ht, hex⟩, rfl,
   ((parry_lunge_in_facing_direction sampleEnv samplePlayer hr sampleGlobals sampleMonsters
      10 20 ht hex).2.1 rfl).1,
   ((parry_lunge_in_facing_direction sampleEnv samplePlayer hr sampleGlobals sampleMonsters
      10 20 ht hex).2.1 rfl).2⟩


/-! ## The parry timer and the parrying flag -/

theorem handleMovementInput_parry (g : Globals) (dt : ℚ) (p : Player) :
    (handleMovementInput g dt p).1.parry_timer_ = p.parry_timer_ ∧
    (handleMovementInput g dt p).1.is_parrying_ = p.is_parrying_ := by
  unfold handleMovementInput moveLeft moveRight moveUp moveDown
  cases g.g_move_left <;> cases g.g_move_right <;> cases g.g_move_up <;>
    cases g.g_move_down <;> exact ⟨rfl, rfl⟩

theorem decelerate_parry (g : Globals) (dt : ℚ) (p : Player) :
    (decelerate g dt p).parry_timer_ = p.parry_timer_ ∧
    (decelerate g dt p).is_parrying_ = p.is_parrying_ := by
  unfold decelerate
  cases g.g_move_left <;> cases g.g_move_right <;> cases g.g_move_up <;>
    cases g.g_move_down <;> exact ⟨rfl, rfl⟩

theorem deriveState_parry (b : Bool) (p : Player) :
    (deriveState b p).parry_timer_ = p.parry_timer_ ∧
    (deriveState b p).is_parrying_ = p.is_parrying_ := by
  unfold deriveState
  cases h : p.is_parrying_ <;> cases b <;> simp <;> split_ifs <;> simp [h]

theorem advanceFrame_parry (dt : ℚ) (p : Player) :
    (advanceFrame dt p).parry_timer_ = p.parry_timer_ ∧
    (advanceFrame dt p).is_parrying_ = p.is_parrying_ := by
  unfold advanceFrame
  simp only
  split_ifs <;> exact ⟨rfl, rfl⟩

theorem updateParryTimer_spec (dt : ℚ) (q : Player) :
    (updateParryTimer dt q).parry_timer_ =
      (if q.parry_timer_ > 0 then f32 (q.parry_timer_ - dt) else q.parry_timer_) ∧
    (updateParryTimer dt q).is_parrying_ =
      (if q.parry_timer_ > 0 then q.is_parrying_ else false) := by
  unfold updateParryTimer
  split_ifs <;> exact ⟨rfl, rfl⟩

/-- The parry timer and the parrying flag after `Update`, in terms of their
values on entry. -/
theorem Update_parry (env : Env) (g : Globals) (p : Player) (dt : ℚ) :
    (p.Update env g dt).parry_timer_ =
      (if p.parry_timer_ > 0 then f32 (p.parry_timer_ - dt) else p.parry_timer_) ∧
    (p.Update env g dt).is_parrying_ =
      (if p.parry_timer_ > 0 then p.is_parrying_ else false) := by
  rw [Update_eq]
  have h1 := handleMovementInput_parry g dt p
  have h2 := decelerate_parry g dt (handleMovementInput g dt p).1
  have h3 := deriveState_parry (handleMovementInput g dt p).2
    (integrate dt (decelerate g dt (handleMovementInput g dt p).1))
  have h4 := advanceFrame_parry dt (deriveState (handleMovementInput g dt p).2
    (integrate dt (decelerate g dt (handleMovementInput g dt p).1)))
  have ht : (advanceFrame dt (deriveState (handleMovementInput g dt p).2
      (integrate dt (decelerate g dt (handleMovementInput g dt p).1)))).parry_timer_ =
      p.parry_timer_ := by
    rw [h4.1, h3.1]
    simp only [integrate]
    rw [h2.1, h1.1]
  have hf : (advanceFrame dt (deriveState (handleMovementInput g dt p).2
      (integrate dt (decelerate g dt (handleMovementInput g dt p).1)))).is_parrying_ =
      p.is_parrying_ := by
    rw [h4.2, h3.2]
    simp only [integrate]
    rw [h2.2, h1.2]
  have hs := updateParryTimer_spec dt (advanceFrame dt
    (deriveState (handleMovementInput g dt p).2
      (integrate dt (decelerate g dt (handleMovementInput g dt p).1))))
  rw [ht, hf] at hs
  exact hs

theorem lunge_parry (p : Player) :
    (lunge p).parry_timer_ = p.parry_timer_ ∧ (lunge p).is_parrying_ = p.is_parrying_ := by
  unfold lunge
  split_ifs <;> exact ⟨rfl, rfl⟩

theorem applyParry_parry (env : Env) (x y : Int) (w : World) (i : Nat) (t : Monster) :
    (applyParry env x y w i t).player.parry_timer_ =
      f32 (w.player.parry_cooldown_ + w.player.parry_duration_) ∧
    (applyParry env x y w i t).player.is_parrying_ = true := by
  simp [applyParry, lunge_parry]

theorem findClosest_sampleWorld :
    findClosest sampleWorld.player sampleWorld.monsters =
      some (0, { kind := MonsterKind.Moving, x := 700, y := 700, health := 2 }) := by
  simp [findClosest, scanMonsters, distSq, Monster.getX, Monster.getY, sampleWorld,
    sampleMonsters, samplePlayer, Player.new, sampleEnv, parryDistance, FLT_MAX, Int.tdiv]

/-- Counterexample to C10 as stated: the player that has just parried (a state
reachable from construction, timer `0.5f + 0.1f`, flag set) is updated with
`deltaTime = 1`; after the call the timer is below zero and the parrying flag is
still set. -/
theorem update_leaves_flag_when_timer_crosses_zero :
    Player.Reachable sampleEnv (PerformParry sampleEnv 10 20 sampleWorld).player ∧
    ((PerformParry sampleEnv 10 20 sampleWorld).player.Update sampleEnv sampleGlobals 1).parry_timer_
      ≤ 0 ∧
    ((PerformParry sampleEnv 10 20 sampleWorld).player.Update sampleEnv sampleGlobals 1).is_parrying_
      = true := by
  have hp := applyParry_parry sampleEnv 10 20 sampleWorld 0
    { kind := MonsterKind.Moving, x := 700, y := 700, health := 2 }
  rw [← performParry_eq_applyParry sampleEnv 10 20 sampleWorld 0 _ (le_refl _)
    findClosest_sampleWorld] at hp
  have hc : f32 (sampleWorld.player.parry_cooldown_ + sampleWorld.player.parry_duration_) =
      5033165 / 8388608 := f32_parry_timer
  rw [hc] at hp
  have hu := Update_parry sampleEnv sampleGlobals (PerformParry sampleEnv 10 20 sampleWorld).player 1
  rw [hp.1, hp.2] at hu
  refine ⟨Player.Reachable.performParry samplePlayer sampleGlobals sampleMonsters 10 20
    (Player.Reachable.construct sampleAnimations), ?_, ?_⟩
  · rw [hu.1, if_pos (by norm_num)]
    exact f32_nonpos _ (by norm_num)
  · rw [hu.2]
    norm_num

/-- C10, amended: for every `Update` call, if the parry timer is at or below
zero on entry to the call then the parrying flag is false after the call and
the timer is left as it was; if the timer is positive on entry, the call lowers
it by `deltaTime` (a `float` subtraction) and leaves the flag as it was.  The
flag is thus cleared by the first call that starts with the timer at or below
zero, the tick after the one in which the decrementing timer reaches zero or
below. -/
theorem update_clears_flag_when_timer_expired (env : Env) (g : Globals) (p : Player)
    (deltaTime : ℚ) :
    (p.parry_timer_ ≤ 0 →
      (p.Update env g deltaTime).is_parrying_ = false ∧
      (p.Update env g deltaTime).parry_timer_ = p.parry_timer_) ∧
    (0 < p.parry_timer_ →
      (p.Update env g deltaTime).is_parrying_ = p.is_parrying_ ∧
      (p.Update env g deltaTime).parry_timer_ = f32 (p.parry_timer_ - deltaTime)) := by
  obtain ⟨h1, h2⟩ := Update_parry env g p deltaTime
  constructor
  · intro h
    rw [h1, h2, if_neg (not_lt.mpr h), if_neg (not_lt.mpr h)]
    exact ⟨rfl, rfl⟩
  · intro h
    rw [h1, h2, if_pos h, if_pos h]
    exact ⟨rfl, rfl⟩

/-- Witness for C10 amended: a player whose timer has run out with the flag
still set; one `Update` clears the flag. -/
theorem update_clears_flag_when_timer_expired_witness :
    ({ samplePlayer with is_parrying_ := true, parry_timer_ := -2 / 5 } : Player).parry_timer_ ≤ 0 ∧
    (Player.Update sampleEnv sampleGlobals
      { samplePlayer with is_parrying_ := true, parry_timer_ := -2 / 5 } (1 / 60)).is_parrying_
      = false ∧
    (Player.Update sampleEnv sampleGlobals
      { samplePlayer with is_parrying_ := true, parry_timer_ := -2 / 5 } (1 / 60)).parry_timer_
      = -2 / 5 :=
  have h : ({ samplePlayer with is_parrying_ := true, parry_timer_ := -2 / 5 } : Player).parry_timer_
      ≤ 0 := by norm_num
  ⟨h, (update_clears_flag_when_timer_expired sampleEnv sampleGlobals
    { samplePlayer with is_parrying_ := true, parry_timer_ := -2 / 5 } (1 / 60)).1 h⟩


/-! ## State derivation and frame advance in `Update` -/

/-- What the movement blocks of `Update` (input, deceleration, position) leave
alone. -/
theorem movement_frame (g : Globals) (dt : ℚ) (p : Player) :
    (integrate dt (decelerate g dt (handleMovementInput g dt p).1)).is_parrying_
      = p.is_parrying_ ∧
    (integrate dt (decelerate g dt (handleMovementInput g dt p).1)).prev_state_
      = p.prev_state_ ∧
    (integrate dt (decelerate g dt (handleMovementInput g dt p).1)).current_frame_
      = p.current_frame_ ∧
    (integrate dt (decelerate g dt (handleMovementInput g dt p).1)).frame_time_
      = p.frame_time_ ∧
    (integrate dt (decelerate g dt (handleMovementInput g dt p).1)).animations_
      = p.animations_ ∧
    (integrate dt (decelerate g dt (handleMovementInput g dt p).1)).parry_cooldown_
      = p.parry_cooldown_ ∧
    (integrate dt (decelerate g dt (handleMovementInput g dt p).1)).parry_duration_
      = p.parry_duration_ := by
  unfold integrate decelerate handleMovementInput moveLeft moveRight moveUp moveDown
  cases g.g_move_left <;> cases g.g_move_right <;> cases g.g_move_up <;>
    cases g.g_move_down <;> exact ⟨rfl, rfl, rfl, rfl, rfl, rfl, rfl⟩

theorem handleMovementInput_isMoving (g : Globals) (dt : ℚ) (p : Player) :
    (handleMovementInput g dt p).2 =
      (g.g_move_left || g.g_move_right || g.g_move_up || g.g_move_down) := by
  unfold handleMovementInput
  cases g.g_move_left <;> cases g.g_move_right <;> cases g.g_move_up <;>
    cases g.g_move_down <;> rfl

theorem deriveState_spec (b : Bool) (q : Player) :
    (deriveState b q).state_ =
      (if q.is_parrying_ then PlayerState.Parry
        else if b then PlayerState.Move else PlayerState.Idle) ∧
    (deriveState b q).prev_state_ = (deriveState b q).state_ ∧
    (deriveState b q).current_frame_ =
      (if (deriveState b q).state_ ≠ q.prev_state_ then 0 else q.current_frame_) ∧
    (deriveState b q).frame_time_ = q.frame_time_ ∧
    (deriveState b q).animations_ = q.animations_ ∧
    (deriveState b q).parry_cooldown_ = q.parry_cooldown_ ∧
    (deriveState b q).parry_duration_ = q.parry_duration_ := by
  unfold deriveState
  cases hp : q.is_parrying_ <;> cases b <;> simp only [Bool.false_eq_true, if_true, if_false] <;>
    split_ifs with h <;> simp_all

theorem advanceFrame_spec (dt : ℚ) (q : Player) :
    (advanceFrame dt q).state_ = q.state_ ∧
    (advanceFrame dt q).prev_state_ = q.prev_state_ ∧
    (advanceFrame dt q).animations_ = q.animations_ ∧
    (advanceFrame dt q).current_frame_ =
      (if (q.animations_ q.state_).frames ≠ [] ∧
          (q.animations_ q.state_).frame_duration ≤ f32 (q.frame_time_ + dt) then
        (q.current_frame_ + 1) % (q.animations_ q.state_).frames.length
      else q.current_frame_) ∧
    (advanceFrame dt q).frame_time_ =
      (if (q.animations_ q.state_).frames ≠ [] ∧
          (q.animations_ q.state_).frame_duration ≤ f32 (q.frame_time_ + dt) then 0
      else f32 (q.frame_time_ + dt)) ∧
    (advanceFrame dt q).parry_cooldown_ = q.parry_cooldown_ ∧
    (advanceFrame dt q).parry_duration_ = q.parry_duration_ := by
  unfold advanceFrame
  by_cases hfire : (q.animations_ q.state_).frames ≠ [] ∧
      (q.animations_ q.state_).frame_duration ≤ f32 (q.frame_time_ + dt)
  · have hne : (q.animations_ q.state_).frames.isEmpty = false := by
      cases hl : (q.animations_ q.state_).frames with
      | nil => exact absurd hl hfire.1
      | cons a l => rfl
    simp [hne, hfire.2, hfire.1]
  · rw [if_neg hfire, if_neg hfire]
    have hcond : ¬ ((!(q.animations_ q.state_).frames.isEmpty
        && decide ((q.animations_ q.state_).frame_duration ≤ f32 (q.frame_time_ + dt))) = true) := by
      intro hc
      simp only [Bool.and_eq_true, Bool.not_eq_true', decide_eq_true_eq] at hc
      apply hfire
      refine ⟨?_, hc.2⟩
      intro hnil
      rw [hnil] at hc
      simp at hc
    simp only [ge_iff_le]
    rw [if_neg hcond]
    exact ⟨rfl, rfl, rfl, rfl, rfl, rfl, rfl⟩

theorem updateParryTimer_frame (dt : ℚ) (q : Player) :
    (updateParryTimer dt q).state_ = q.state_ ∧
    (updateParryTimer dt q).prev_state_ = q.prev_state_ ∧
    (updateParryTimer dt q).animations_ = q.animations_ ∧
    (updateParryTimer dt q).current_frame_ = q.current_frame_ ∧
    (updateParryTimer dt q).frame_time_ = q.frame_time_ ∧
    (updateParryTimer dt q).parry_cooldown_ = q.parry_cooldown_ ∧
    (updateParryTimer dt q).parry_duration_ = q.parry_duration_ := by
  unfold updateParryTimer
  split_ifs <;> exact ⟨rfl, rfl, rfl, rfl, rfl, rfl, rfl⟩


/-- The animation blocks of `Update` (state derivation, frame advance, parry
timer, clamp) applied to a player `q` with `isMoving = b`. -/
theorem animation_chain (env : Env) (dt : ℚ) (q : Player) (b : Bool) (s : PlayerState)
    (hs : s = if q.is_parrying_ then PlayerState.Parry
      else if b then PlayerState.Move else PlayerState.Idle)
    (idx : Nat) (hidx : idx = if s ≠ q.prev_state_ then 0 else q.current_frame_) :
    (clampToWindow env (updateParryTimer dt (advanceFrame dt (deriveState b q)))).state_ = s ∧
    (clampToWindow env (updateParryTimer dt (advanceFrame dt (deriveState b q)))).prev_state_
      = s ∧
    (clampToWindow env (updateParryTimer dt (advanceFrame dt (deriveState b q)))).animations_
      = q.animations_ ∧
    (clampToWindow env (updateParryTimer dt (advanceFrame dt (deriveState b q)))).current_frame_ =
      (if (q.animations_ s).frames ≠ [] ∧ (q.animations_ s).frame_duration ≤ f32 (q.frame_time_ + dt)
        then (idx + 1) % (q.animations_ s).frames.length else idx) ∧
    (clampToWindow env (updateParryTimer dt (advanceFrame dt (deriveState b q)))).frame_time_ =
      (if (q.animations_ s).frames ≠ [] ∧ (q.animations_ s).frame_duration ≤ f32 (q.frame_time_ + dt)
        then 0 else f32 (q.frame_time_ + dt)) ∧
    (clampToWindow env (updateParryTimer dt (advanceFrame dt (deriveState b q)))).parry_cooldown_
      = q.parry_cooldown_ ∧
    (clampToWindow env (updateParryTimer dt (advanceFrame dt (deriveState b q)))).parry_duration_
      = q.parry_duration_ := by
  obtain ⟨d1, d2, d3, d4, d5, d6, d7⟩ := deriveState_spec b q
  rw [← hs] at d1
  rw [d1] at d2
  rw [d1, ← hidx] at d3
  obtain ⟨a1, a2, a3, a4, a5, a6, a7⟩ := advanceFrame_spec dt (deriveState b q)
  rw [d5, d1, d4, d3] at a4
  rw [d5, d1, d4] at a5
  obtain ⟨u1, u2, u3, u4, u5, u6, u7⟩ := updateParryTimer_frame dt
    (advanceFrame dt (deriveState b q))
  refine ⟨?_, ?_, ?_, ?_, ?_, ?_, ?_⟩
  · exact u1.trans (a1.trans d1)
  · exact u2.trans (a2.trans d2)
  · exact u3.trans (a3.trans d5)
  · exact u4.trans a4
  · exact u5.trans a5
  · exact u6.trans (a6.trans d6)
  · exact u7.trans (a7.trans d7)

/-- The animation fields after `Update`: `s` is the state derived this tick and
`idx` the frame index once the state-change reset has been applied. -/
theorem Update_animation_spec (env : Env) (g : Globals) (p : Player) (dt : ℚ)
    (s : PlayerState)
    (hs : s = if p.is_parrying_ then PlayerState.Parry
      else if (g.g_move_left || g.g_move_right || g.g_move_up || g.g_move_down)
        then PlayerState.Move else PlayerState.Idle)
    (idx : Nat) (hidx : idx = if s ≠ p.prev_state_ then 0 else p.current_frame_) :
    (p.Update env g dt).state_ = s ∧
    (p.Update env g dt).prev_state_ = s ∧
    (p.Update env g dt).animations_ = p.animations_ ∧
    (p.Update env g dt).current_frame_ =
      (if (p.animations_ s).frames ≠ [] ∧ (p.animations_ s).frame_duration ≤ f32 (p.frame_time_ + dt)
        then (idx + 1) % (p.animations_ s).frames.length else idx) ∧
    (p.Update env g dt).frame_time_ =
      (if (p.animations_ s).frames ≠ [] ∧ (p.animations_ s).frame_duration ≤ f32 (p.frame_time_ + dt)
        then 0 else f32 (p.frame_time_ + dt)) ∧
    (p.Update env g dt).parry_cooldown_ = p.parry_cooldown_ ∧
    (p.Update env g dt).parry_duration_ = p.parry_duration_ := by
  obtain ⟨m1, m2, m3, m4, m5, m6, m7⟩ := movement_frame g dt p
  have hb := handleMovementInput_isMoving g dt p
  have h := animation_chain env dt
    (integrate dt (decelerate g dt (handleMovementInput g dt p).1))
    (handleMovementInput g dt p).2 s (by rw [m1, hb]; exact hs) idx (by rw [m2, m3]; exact hidx)
  rw [m4, m5, m6, m7] at h
  rw [Update_eq]
  exact h

theorem f32_eighth : f32 (1 / 8) = 1 / 8 :=
  f32_of_isF32 _ ⟨1, -3, by norm_num, by norm_num, by norm_num⟩

theorem f32_sixty_fourth : f32 (1 / 64) = 1 / 64 :=
  f32_of_isF32 _ ⟨1, -6, by norm_num, by norm_num, by norm_num⟩

/-- Counterexample to C11 as stated: the freshly constructed player (state Idle,
frame 0, three frames of `0.1f` s per animation) is updated with the left key
held and `deltaTime = 0.125`.  The derived state Move differs from the previous
state, the index is reset, and the frame advance of the same call moves it
to 1. -/
theorem update_state_change_frame_one :
    (Player.Update sampleEnv { sampleGlobals with g_move_left := true } samplePlayer
      (1 / 8)).state_ = PlayerState.Move ∧
    samplePlayer.prev_state_ = PlayerState.Idle ∧
    (Player.Update sampleEnv { sampleGlobals with g_move_left := true } samplePlayer
      (1 / 8)).current_frame_ = 1 := by
  obtain ⟨h1, _, _, h4, _⟩ := Update_animation_spec sampleEnv
    { sampleGlobals with g_move_left := true } samplePlayer (1 / 8) PlayerState.Move rfl 0 rfl
  refine ⟨h1, rfl, ?_⟩
  rw [h4]
  have hfire : (samplePlayer.animations_ PlayerState.Move).frames ≠ [] ∧
      (samplePlayer.animations_ PlayerState.Move).frame_duration
        ≤ f32 (samplePlayer.frame_time_ + 1 / 8) := by
    constructor
    · simp [samplePlayer, Player.new, sampleAnimations]
    · have e : samplePlayer.frame_time_ + 1 / 8 = 1 / 8 := by
        norm_num [samplePlayer, Player.new]
      rw [e, f32_eighth]
      show f32 (1 / 10) ≤ 1 / 8
      rw [f32_tenth]
      norm_num
  rw [if_pos hfire]
  rfl

/-- C11, amended: for every `Update` call in which the newly derived state
differs from the state of the previous tick, the frame index is reset to 0
before the frame advance of the same call; after the call it is 0 unless the
frame advance fires in that call (the animation of the new state has frames
and the frame accumulator, the `float` sum of its old value and `deltaTime`,
has reached the frame duration), in which case it is `1 mod frameCount`. -/
theorem update_state_change_resets_frame (env : Env) (g : Globals) (p : Player) (deltaTime : ℚ)
    (hchange : (p.Update env g deltaTime).state_ ≠ p.prev_state_) :
    (p.Update env g deltaTime).current_frame_ =
      (if (p.animations_ (p.Update env g deltaTime).state_).frames ≠ [] ∧
          (p.animations_ (p.Update env g deltaTime).state_).frame_duration
            ≤ f32 (p.frame_time_ + deltaTime)
        then 1 % (p.animations_ (p.Update env g deltaTime).state_).frames.length
        else 0) := by
  obtain ⟨h1, _, _, h4, _⟩ := Update_animation_spec env g p deltaTime _ rfl _ rfl
  rw [h1] at hchange ⊢
  rw [h4, if_pos hchange]

/-- Witness for C11 amended: with `deltaTime = 1/64` the frame advance does not
fire and the index after the state change is 0. -/
theorem update_state_change_resets_frame_witness :
    (Player.Update sampleEnv { sampleGlobals with g_move_left := true } samplePlayer
      (1 / 64)).state_ ≠ samplePlayer.prev_state_ ∧
    (Player.Update sampleEnv { sampleGlobals with g_move_left := true } samplePlayer
      (1 / 64)).current_frame_ = 0 :=
  have hs : (Player.Update sampleEnv { sampleGlobals with g_move_left := true } samplePlayer
      (1 / 64)).state_ = PlayerState.Move :=
    (Update_animation_spec sampleEnv { sampleGlobals with g_move_left := true } samplePlayer
      (1 / 64) PlayerState.Move rfl 0 rfl).1
  have hchange : (Player.Update sampleEnv { sampleGlobals with g_move_left := true } samplePlayer
      (1 / 64)).state_ ≠ samplePlayer.prev_state_ := by
    rw [hs]
    decide
  ⟨hchange,
   (update_state_change_resets_frame sampleEnv { sampleGlobals with g_move_left := true }
      samplePlayer (1 / 64) hchange).trans (by
        rw [hs]
        have e : samplePlayer.frame_time_ + 1 / 64 = 1 / 64 := by
          norm_num [samplePlayer, Player.new]
        have hno : ¬ ((samplePlayer.animations_ PlayerState.Move).frames ≠ [] ∧
            (samplePlayer.animations_ PlayerState.Move).frame_duration
              ≤ f32 (samplePlayer.frame_time_ + 1 / 64)) := by
          rw [e, f32_sixty_fourth]
          intro hcon
          have h2 : f32 (1 / 10) ≤ 1 / 64 := hcon.2
          rw [f32_tenth] at h2
          norm_num at h2
        rw [if_neg hno])⟩

/-! ## The frame index stays inside the active animation -/

theorem Update_frameValid (env : Env) (g : Globals) (p : Player) (dt : ℚ)
    (h : FrameValid p) : FrameValid (p.Update env g dt) := by
  have key : ∀ (s : PlayerState) (idx : Nat),
      (s = if p.is_parrying_ then PlayerState.Parry
        else if (g.g_move_left || g.g_move_right || g.g_move_up || g.g_move_down)
          then PlayerState.Move else PlayerState.Idle) →
      (idx = if s ≠ p.prev_state_ then 0 else p.current_frame_) →
      FrameValid (p.Update env g dt) := by
    intro s idx hs hidx
    obtain ⟨_, h2, h3, h4, _⟩ := Update_animation_spec env g p dt s hs idx hidx
    unfold FrameValid at h ⊢
    rw [h2, h3, h4]
    intro hne
    have hpos : 0 < (p.animations_ s).frames.length := List.length_pos.mpr hne
    by_cases hfire : (p.animations_ s).frames ≠ [] ∧
        (p.animations_ s).frame_duration ≤ f32 (p.frame_time_ + dt)
    · rw [if_pos hfire]
      exact Nat.mod_lt _ hpos
    · rw [if_neg hfire, hidx]
      by_cases hchange : s ≠ p.prev_state_
      · rw [if_pos hchange]
        exact hpos
      · rw [if_neg hchange]
        have heq : s = p.prev_state_ := not_not.mp hchange
        rw [heq] at hne ⊢
        exact h hne
  exact key _ _ rfl rfl

theorem lunge_frame (p : Player) :
    (lunge p).prev_state_ = p.prev_state_ ∧ (lunge p).current_frame_ = p.current_frame_ ∧
    (lunge p).animations_ = p.animations_ ∧
    (lunge p).parry_cooldown_ = p.parry_cooldown_ ∧
    (lunge p).parry_duration_ = p.parry_duration_ := by
  unfold lunge
  split_ifs <;> exact ⟨rfl, rfl, rfl, rfl, rfl⟩

theorem PerformParry_frame (env : Env) (x y : Int) (w : World) :
    (PerformParry env x y w).player.prev_state_ = w.player.prev_state_ ∧
    (PerformParry env x y w).player.current_frame_ = w.player.current_frame_ ∧
    (PerformParry env x y w).player.animations_ = w.player.animations_ ∧
    (PerformParry env x y w).player.parry_cooldown_ = w.player.parry_cooldown_ ∧
    (PerformParry env x y w).player.parry_duration_ = w.player.parry_duration_ := by
  unfold PerformParry
  split_ifs
  · cases h : findClosest w.player w.monsters with
    | none => exact ⟨rfl, rfl, rfl, rfl, rfl⟩
    | some it =>
      simp only [applyParry]
      exact lunge_frame _
  · exact ⟨rfl, rfl, rfl, rfl, rfl⟩

theorem HandleEvents_frame (env : Env) (x y : Int) (event : SDL_Event) (w : World) :
    (HandleEvents env x y event w).player.prev_state_ = w.player.prev_state_ ∧
    (HandleEvents env x y event w).player.current_frame_ = w.player.current_frame_ ∧
    (HandleEvents env x y event w).player.animations_ = w.player.animations_ ∧
    (HandleEvents env x y event w).player.parry_cooldown_ = w.player.parry_cooldown_ ∧
    (HandleEvents env x y event w).player.parry_duration_ = w.player.parry_duration_ := by
  unfold HandleEvents
  cases event.type <;> cases event.sym <;>
    first
      | exact ⟨rfl, rfl, rfl, rfl, rfl⟩
      | exact PerformParry_frame env x y w

theorem reachable_frameValid (env : Env) (p : Player) (h : Player.Reachable env p) :
    FrameValid p := by
  induction h with
  | construct anims =>
    intro hne
    exact List.length_pos.mpr hne
  | update p g dt _ ih => exact Update_frameValid env g p dt ih
  | handleEvents p g monsters x y event _ ih =>
    obtain ⟨h1, h2, h3, _⟩ := HandleEvents_frame env x y event
      { player := p, globals := g, monsters := monsters }
    unfold FrameValid at ih ⊢
    rw [h1, h2, h3]
    exact ih
  | performParry p g monsters x y _ ih =>
    obtain ⟨h1, h2, h3, _⟩ := PerformParry_frame env x y
      { player := p, globals := g, monsters := monsters }
    unfold FrameValid at ih ⊢
    rw [h1, h2, h3]
    exact ih

/-- C12: in every state reachable from a freshly constructed player through
`Update`, `HandleEvents` and `PerformParry` calls, after each `Update` the frame
index is strictly below the frame count of the animation of the current state
whenever that animation has frames. -/
theorem frame_index_in_bounds (env : Env) (p : Player) (hr : Player.Reachable env p)
    (g : Globals) (deltaTime : ℚ)
    (hne : ((p.Update env g deltaTime).animations_ (p.Update env g deltaTime).state_).frames
      ≠ []) :
    (p.Update env g deltaTime).current_frame_ <
      ((p.Update env g deltaTime).animations_ (p.Update env g deltaTime).state_).frames.length := by
  have hv := Update_frameValid env g p deltaTime (reachable_frameValid env p hr)
  obtain ⟨h1, h2, _⟩ := Update_animation_spec env g p deltaTime _ rfl _ rfl
  unfold FrameValid at hv
  rw [h2, ← h1] at hv
  exact hv hne


/-- Witness for C12: the freshly constructed player with three-frame
animations, updated with no key held. -/
theorem frame_index_in_bounds_witness :
    (Player.Reachable sampleEnv samplePlayer ∧
      ((samplePlayer.Update sampleEnv sampleGlobals (1 / 60)).animations_
        (samplePlayer.Update sampleEnv sampleGlobals (1 / 60)).state_).frames ≠ []) ∧
    (samplePlayer.Update sampleEnv sampleGlobals (1 / 60)).current_frame_ <
      ((samplePlayer.Update sampleEnv sampleGlobals (1 / 60)).animations_
        (samplePlayer.Update sampleEnv sampleGlobals (1 / 60)).state_).frames.length :=
  have hr : Player.Reachable sampleEnv samplePlayer :=
    Player.Reachable.construct sampleAnimations
  have hne : ((samplePlayer.Update sampleEnv sampleGlobals (1 / 60)).animations_
      (samplePlayer.Update sampleEnv sampleGlobals (1 / 60)).state_).frames ≠ [] := by
    rw [(Update_animation_spec sampleEnv sampleGlobals samplePlayer (1 / 60) _ rfl _ rfl).2.2.1]
    simp [samplePlayer, Player.new, sampleAnimations]
  ⟨⟨hr, hne⟩, frame_index_in_bounds sampleEnv samplePlayer hr sampleGlobals (1 / 60) hne⟩

/-! ## State priority and frame timing -/

/-- C16: after every `Update` the state is Parry if the parrying flag was set
on entry to the call, otherwise Move if at least one directional input is
active in this tick, otherwise Idle; it is never Damage and never Death. -/
theorem update_state_priority (env : Env) (g : Globals) (p : Player) (deltaTime : ℚ) :
    (p.Update env g deltaTime).state_ =
      (if p.is_parrying_ = true then PlayerState.Parry
        else if g.g_move_left = true ∨ g.g_move_right = true ∨ g.g_move_up = true ∨
            g.g_move_down = true then PlayerState.Move
        else PlayerState.Idle) ∧
    (p.Update env g deltaTime).state_ ≠ PlayerState.Damage ∧
    (p.Update env g deltaTime).state_ ≠ PlayerState.Death := by
  have h1 := (Update_animation_spec env g p deltaTime _ rfl _ rfl).1
  rw [h1]
  cases p.is_parrying_ <;> cases g.g_move_left <;> cases g.g_move_right <;>
    cases g.g_move_up <;> cases g.g_move_down <;> simp

/-- C17: frame advance in `Update`.  The frame accumulator grows by
`deltaTime`: it becomes the `float` sum of its old value and `deltaTime`.  If
the animation of the state derived in this call has frames and the accumulator
has reached its frame duration, the accumulator becomes 0 and the frame index
becomes `(index + 1) mod frameCount`, where `index` is the index on entry, or 0
when the state changed in this call.  Otherwise the accumulator keeps the sum
and the index is not advanced; in particular there is no advance when the
animation has no frames. -/
theorem update_frame_advance (env : Env) (g : Globals) (p : Player) (deltaTime : ℚ) :
    (p.Update env g deltaTime).frame_time_ =
      (if (p.animations_ (p.Update env g deltaTime).state_).frames ≠ [] ∧
          (p.animations_ (p.Update env g deltaTime).state_).frame_duration
            ≤ f32 (p.frame_time_ + deltaTime)
        then 0 else f32 (p.frame_time_ + deltaTime)) ∧
    (p.Update env g deltaTime).current_frame_ =
      (if (p.animations_ (p.Update env g deltaTime).state_).frames ≠ [] ∧
          (p.animations_ (p.Update env g deltaTime).state_).frame_duration
            ≤ f32 (p.frame_time_ + deltaTime)
        then ((if (p.Update env g deltaTime).state_ ≠ p.prev_state_ then 0
                else p.current_frame_) + 1) %
              (p.animations_ (p.Update env g deltaTime).state_).frames.length
        else (if (p.Update env g deltaTime).state_ ≠ p.prev_state_ then 0
                else p.current_frame_)) := by
  obtain ⟨h1, _, _, h4, h5, _⟩ := Update_animation_spec env g p deltaTime _ rfl _ rfl
  rw [h1]
  exact ⟨h5, h4⟩


/-! ## The tutorial scene: spawning -/

theorem SpawnMonster_below (env : Env) (x y : Int) (t : Tutorial)
    (h : t.monsters.length < t.maxMonsters) :
    Tutorial.SpawnMonster env x y t =
      { t with
        deathCount := t.deathCount + 1
        monsters := t.monsters ++
          [if (t.deathCount + 1) % 3 = 1 then MovingMonster env x y
            else if (t.deathCount + 1) % 3 = 2 then RangedMonster env x y
            else ChargingMonster env x y] } := by
  unfold Tutorial.SpawnMonster
  rw [if_pos h]
  have hmod : (t.deathCount + 1) % 3 = 0 ∨ (t.deathCount + 1) % 3 = 1 ∨
      (t.deathCount + 1) % 3 = 2 := by omega
  rcases hmod with h0 | h1 | h2
  · simp [h0]
  · simp [h1]
  · simp [h2]

theorem SpawnMonster_full (env : Env) (x y : Int) (t : Tutorial)
    (h : t.maxMonsters ≤ t.monsters.length) : Tutorial.SpawnMonster env x y t = t := by
  unfold Tutorial.SpawnMonster
  rw [if_neg (by omega)]

/-- C13: `Tutorial::SpawnMonster` is gated by capacity and cycles the three
variants.  Below capacity it raises the death counter by one and appends
exactly one monster: Moving, Ranged or Charging when the raised counter mod 3
is 1, 2 or 0.  At or above capacity it changes nothing.  Hence a collection
within capacity stays within capacity, and three consecutive successful spawns
(whatever happens to the collection in between) yield three different
variants, one of each. -/
theorem spawnMonster_capacity_cycle (env : Env) (x y : Int) (t : Tutorial) :
    (t.monsters.length < t.maxMonsters →
      (Tutorial.SpawnMonster env x y t).deathCount = t.deathCount + 1 ∧
      ∃ m : Monster, (Tutorial.SpawnMonster env x y t).monsters = t.monsters ++ [m] ∧
        ((t.deathCount + 1) % 3 = 1 → m = MovingMonster env x y) ∧
        ((t.deathCount + 1) % 3 = 2 → m = RangedMonster env x y) ∧
        ((t.deathCount + 1) % 3 = 0 → m = ChargingMonster env x y)) ∧
    (t.maxMonsters ≤ t.monsters.length → Tutorial.SpawnMonster env x y t = t) ∧
    (t.monsters.length ≤ t.maxMonsters →
      (Tutorial.SpawnMonster env x y t).monsters.length ≤
        (Tutorial.SpawnMonster env x y t).maxMonsters) ∧
    (∀ (x2 y2 x3 y3 : Int) (ms1 ms2 : List Monster),
      t.monsters.length < t.maxMonsters → ms1.length < t.maxMonsters →
      ms2.length < t.maxMonsters →
      ∃ a b c : Monster,
        (Tutorial.SpawnMonster env x y t).monsters = t.monsters ++ [a] ∧
        (Tutorial.SpawnMonster env x2 y2
          { Tutorial.SpawnMonster env x y t with monsters := ms1 }).monsters = ms1 ++ [b] ∧
        (Tutorial.SpawnMonster env x3 y3
          { Tutorial.SpawnMonster env x2 y2
              { Tutorial.SpawnMonster env x y t with monsters := ms1 } with
            monsters := ms2 }).monsters = ms2 ++ [c] ∧
        a.kind ≠ b.kind ∧ b.kind ≠ c.kind ∧ a.kind ≠ c.kind) := by
  refine ⟨?_, SpawnMonster_full env x y t, ?_, ?_⟩
  · intro h
    rw [SpawnMonster_below env x y t h]
    refine ⟨rfl, _, rfl, ?_, ?_, ?_⟩
    · intro h1
      rw [if_pos h1]
    · intro h2
      rw [if_neg (by omega), if_pos h2]
    · intro h0
      rw [if_neg (by omega), if_neg (by omega)]
  · intro h
    rcases Nat.lt_or_ge t.monsters.length t.maxMonsters with hlt | hge
    · rw [SpawnMonster_below env x y t hlt]
      simp only [List.length_append, List.length_singleton]
      omega
    · rw [SpawnMonster_full env x y t hge]
      exact h
  · intro x2 y2 x3 y3 ms1 ms2 h0 h1 h2
    rw [SpawnMonster_below env x y t h0]
    rw [SpawnMonster_below env x2 y2 _ h1]
    rw [SpawnMonster_below env x3 y3 _ h2]
    refine ⟨_, _, _, rfl, rfl, rfl, ?_⟩
    simp only
    have hmod : t.deathCount % 3 = 0 ∨ t.deathCount % 3 = 1 ∨ t.deathCount % 3 = 2 := by
      omega
    rcases hmod with hm | hm | hm
    · have e1 : (t.deathCount + 1) % 3 = 1 := by omega
      have e2 : (t.deathCount + 1 + 1) % 3 = 2 := by omega
      have e3 : (t.deathCount + 1 + 1 + 1) % 3 = 0 := by omega
      simp [e1, e2, e3, MovingMonster, RangedMonster, ChargingMonster]
    · have e1 : (t.deathCount + 1) % 3 = 2 := by omega
      have e2 : (t.deathCount + 1 + 1) % 3 = 0 := by omega
      have e3 : (t.deathCount + 1 + 1 + 1) % 3 = 1 := by omega
      simp [e1, e2, e3, MovingMonster, RangedMonster, ChargingMonster]
    · have e1 : (t.deathCount + 1) % 3 = 0 := by omega
      have e2 : (t.deathCount + 1 + 1) % 3 = 1 := by omega
      have e3 : (t.deathCount + 1 + 1 + 1) % 3 = 2 := by omega
      simp [e1, e2, e3, MovingMonster, RangedMonster, ChargingMonster]

/-- Witness for C13: the empty example scene; the first spawn raises the
counter to 1 and appends a `MovingMonster`. -/
theorem spawnMonster_capacity_cycle_witness :
    sampleTutorial.monsters.length < sampleTutorial.maxMonsters ∧
    (Tutorial.SpawnMonster sampleEnv 10 20 sampleTutorial).deathCount = 1 ∧
    ∃ m : Monster,
      (Tutorial.SpawnMonster sampleEnv 10 20 sampleTutorial).monsters =
        sampleTutorial.monsters ++ [m] ∧
      ((sampleTutorial.deathCount + 1) % 3 = 1 → m = MovingMonster sampleEnv 10 20) ∧
      ((sampleTutorial.deathCount + 1) % 3 = 2 → m = RangedMonster sampleEnv 10 20) ∧
      ((sampleTutorial.deathCount + 1) % 3 = 0 → m = ChargingMonster sampleEnv 10 20) :=
  have h : sampleTutorial.monsters.length < sampleTutorial.maxMonsters := by decide
  ⟨h, ((spawnMonster_capacity_cycle sampleEnv 10 20 sampleTutorial).1 h).1,
    ((spawnMonster_capacity_cycle sampleEnv 10 20 sampleTutorial).1 h).2⟩


/-! ## The tutorial scene: the portal gate -/

theorem SpawnMonster_showPortal (env : Env) (x y : Int) (t : Tutorial) :
    (Tutorial.SpawnMonster env x y t).showPortal = t.showPortal := by
  rcases Nat.lt_or_ge t.monsters.length t.maxMonsters with hlt | hge
  · rw [SpawnMonster_below env x y t hlt]
  · rw [SpawnMonster_full env x y t hge]

theorem portalGate_showPortal (env : Env) (t : Tutorial) (g : Globals) :
    (Tutorial.portalGate env t g).1.showPortal = t.showPortal := by
  unfold Tutorial.portalGate
  simp only
  split_ifs <;> rfl

theorem portalGate_open (env : Env) (t : Tutorial) (g : Globals)
    (h : t.showPortal = true ∧ SDL_HasIntersection t.player_.GetRect t.portalRect = true) :
    (Tutorial.portalGate env t g).2.g_kill_count = 0 ∧
    (Tutorial.portalGate env t g).2.g_player_health = 10 ∧
    (Tutorial.portalGate env t g).2.g_current_game_phase = env.PHASE_Entrance ∧
    (Tutorial.portalGate env t g).1.player_.rect_.x = Int.tdiv env.WINDOW_WIDTH 2 ∧
    (Tutorial.portalGate env t g).1.player_.rect_.y = Int.tdiv env.WINDOW_HEIGHT 2 := by
  unfold Tutorial.portalGate
  simp [h.1, h.2, Player.SetPosition]

theorem portalGate_closed (env : Env) (t : Tutorial) (g : Globals)
    (h : ¬ (t.showPortal = true ∧ SDL_HasIntersection t.player_.GetRect t.portalRect = true)) :
    Tutorial.portalGate env t g = (t, g) := by
  unfold Tutorial.portalGate
  simp only
  rw [if_neg]
  simpa using h

/-- C14: the portal gate of `Tutorial::Update`, evaluated on the state that
`Map::Update` leaves.  If the portal is armed and the shrunk collision
rectangle of the player (`GetRect`) intersects the portal rectangle
`{350, 500, 100, 100}`, then afterwards the kill counter is 0, the player
health is 10, the current phase is `PHASE_Entrance` and the player stands at
`(WINDOW_WIDTH / 2, WINDOW_HEIGHT / 2)`.  If the portal is not armed or there
is no intersection, the gate changes none of the four.  The portal flag is set
only by the key-down event of C and cleared only by `ResetPortalCloaking`:
`Update`, `SpawnMonster` and every other event leave it as it is. -/
theorem portal_gate (env : Env) (mapUpdate : ℚ → Map × Globals → Map × Globals)
    (deltaTime : ℚ) (t : Tutorial) (g : Globals)
    (hrect : t.portalRect = { x := 350, y := 500, w := 100, h := 100 }) :
    (t.showPortal = true ∧
      SDL_HasIntersection (mapUpdate deltaTime (t.toMap, g)).1.player_.GetRect
        { x := 350, y := 500, w := 100, h := 100 } = true →
      (Tutorial.Update env mapUpdate deltaTime t g).2.g_kill_count = 0 ∧
      (Tutorial.Update env mapUpdate deltaTime t g).2.g_player_health = 10 ∧
      (Tutorial.Update env mapUpdate deltaTime t g).2.g_current_game_phase
        = env.PHASE_Entrance ∧
      (Tutorial.Update env mapUpdate deltaTime t g).1.player_.rect_.x
        = Int.tdiv env.WINDOW_WIDTH 2 ∧
      (Tutorial.Update env mapUpdate deltaTime t g).1.player_.rect_.y
        = Int.tdiv env.WINDOW_HEIGHT 2) ∧
    (¬ (t.showPortal = true ∧
        SDL_HasIntersection (mapUpdate deltaTime (t.toMap, g)).1.player_.GetRect
          { x := 350, y := 500, w := 100, h := 100 } = true) →
      (Tutorial.Update env mapUpdate deltaTime t g).2 = (mapUpdate deltaTime (t.toMap, g)).2 ∧
      (Tutorial.Update env mapUpdate deltaTime t g).1.player_
        = (mapUpdate deltaTime (t.toMap, g)).1.player_) ∧
    (Tutorial.Update env mapUpdate deltaTime t g).1.showPortal = t.showPortal ∧
    (∀ event : SDL_Event,
      (Tutorial.HandleEvent event t).showPortal =
        (if event.type = EventType.SDL_KEYDOWN ∧ event.sym = Keycode.SDLK_c then true
          else t.showPortal)) ∧
    (∀ x y : Int, (Tutorial.SpawnMonster env x y t).showPortal = t.showPortal) ∧
    (Tutorial.ResetPortalCloaking t).showPortal = false := by
  refine ⟨?_, ?_, ?_, ?_, ?_, rfl⟩
  · intro h
    unfold Tutorial.Update
    apply portalGate_open
    simpa [hrect] using h
  · intro h
    unfold Tutorial.Update
    rw [portalGate_closed]
    · exact ⟨rfl, rfl⟩
    · simpa [hrect] using h
  · unfold Tutorial.Update
    rw [portalGate_showPortal]
  · intro event
    unfold Tutorial.HandleEvent
    by_cases h1 : event.type = EventType.SDL_KEYDOWN
    · by_cases h2 : event.sym = Keycode.SDLK_c
      · simp [h1, h2]
      · simp [h1, h2]
    · simp [h1]
  · intro x y
    exact SpawnMonster_showPortal env x y t


/-- The collision rectangle of a player of the constructed size 150 x 150 is
75 wide and 90 high. -/
theorem GetRect_standard (p : Player) (hw : p.rect_.w = 150) (hh : p.rect_.h = 150) :
    p.GetRect = { x := p.rect_.x, y := p.rect_.y, w := 75, h := 90 } := by
  have e1 : ((150 : Int) : ℚ) * (1 / 2) = ((75 : Int) : ℚ) := by norm_num
  have e2 : ((150 : Int) : ℚ) * (3 / 5) = ((90 : Int) : ℚ) := by norm_num
  simp only [Player.GetRect, hw, hh, e1, e2, truncToInt_intCast]

/-- Witness for C14: the armed example scene with the player at (360, 480),
whose collision rectangle overlaps the portal; `Map::Update` is taken to change
nothing. -/
theorem portal_gate_witness :
    (sampleArmedTutorial.portalRect = { x := 350, y := 500, w := 100, h := 100 } ∧
      sampleArmedTutorial.showPortal = true ∧
      SDL_HasIntersection sampleArmedTutorial.player_.GetRect
        { x := 350, y := 500, w := 100, h := 100 } = true) ∧
    (Tutorial.Update sampleEnv (fun _ r => r) (1 / 60) sampleArmedTutorial
      { sampleGlobals with g_kill_count := 4, g_player_health := 7 }).2.g_kill_count = 0 ∧
    (Tutorial.Update sampleEnv (fun _ r => r) (1 / 60) sampleArmedTutorial
      { sampleGlobals with g_kill_count := 4, g_player_health := 7 }).2.g_player_health = 10 ∧
    (Tutorial.Update sampleEnv (fun _ r => r) (1 / 60) sampleArmedTutorial
      { sampleGlobals with g_kill_count := 4, g_player_health := 7 }).2.g_current_game_phase
        = sampleEnv.PHASE_Entrance ∧
    (Tutorial.Update sampleEnv (fun _ r => r) (1 / 60) sampleArmedTutorial
      { sampleGlobals with g_kill_count := 4, g_player_health := 7 }).1.player_.rect_.x = 400 ∧
    (Tutorial.Update sampleEnv (fun _ r => r) (1 / 60) sampleArmedTutorial
      { sampleGlobals with g_kill_count := 4, g_player_health := 7 }).1.player_.rect_.y = 300 :=
  have hrect : sampleArmedTutorial.portalRect = { x := 350, y := 500, w := 100, h := 100 } :=
    rfl
  have harmed : sampleArmedTutorial.showPortal = true := rfl
  have hhit : SDL_HasIntersection sampleArmedTutorial.player_.GetRect
      { x := 350, y := 500, w := 100, h := 100 } = true := by
    rw [GetRect_standard sampleArmedTutorial.player_ rfl rfl]
    decide
  ⟨⟨hrect, harmed, hhit⟩,
   (portal_gate sampleEnv (fun _ r => r) (1 / 60) sampleArmedTutorial
      { sampleGlobals with g_kill_count := 4, g_player_health := 7 } hrect).1 ⟨harmed, hhit⟩⟩


/-! ## The shared animation store is loaded once -/

theorem construct_loaded (env : Env) (loadTexture : String → Option Nat) (s : PlayerStatics)
    (h : s.textures_loaded_ = true) :
    (Player.construct env loadTexture s).2 = s ∧
    (Player.construct env loadTexture s).1.animations_ = s.shared_animations_ := by
  unfold Player.construct
  simp [h, Player.new]

theorem construct_first (env : Env) (loadTexture : String → Option Nat) (s : PlayerStatics)
    (h : s.textures_loaded_ = false) :
    (Player.construct env loadTexture s).2 =
      { textures_loaded_ := true
        shared_animations_ := LoadTextures loadTexture s.shared_animations_
        loadTexturesCalls := s.loadTexturesCalls + 1 } ∧
    (Player.construct env loadTexture s).1.animations_ =
      LoadTextures loadTexture s.shared_animations_ := by
  unfold Player.construct
  simp [h, Player.new]

theorem constructPlayers_loaded (env : Env) (loaders : List (String → Option Nat)) :
    ∀ s : PlayerStatics, s.textures_loaded_ = true →
      (constructPlayers env loaders s).2 = s ∧
      ∀ p ∈ (constructPlayers env loaders s).1, p.animations_ = s.shared_animations_ := by
  induction loaders with
  | nil =>
    intro s _
    exact ⟨rfl, fun p hp => absurd hp (List.not_mem_nil p)⟩
  | cons l rest ih =>
    intro s hs
    obtain ⟨h1, h2⟩ := construct_loaded env l s hs
    simp only [constructPlayers]
    rw [h1]
    obtain ⟨i1, i2⟩ := ih s hs
    refine ⟨i1, ?_⟩
    intro p hp
    rcases List.mem_cons.mp hp with hp | hp
    · rw [hp]
      exact h2
    · exact i2 p hp

/-- C15: in every sequence of `Player` constructions of one process,
`LoadTextures` is called exactly once, by the first construction; the shared
animation store is what that call loaded, every constructed player has it as
its own animation table, and a construction made once the flag is set leaves
the static members (store, flag, call count) unchanged and copies the store. -/
theorem load_textures_once (env : Env) (first : String → Option Nat)
    (later : List (String → Option Nat)) :
    (Player.construct env first PlayerStatics.initial).2.loadTexturesCalls = 1 ∧
    (constructPlayers env (first :: later) PlayerStatics.initial).2.loadTexturesCalls = 1 ∧
    (constructPlayers env (first :: later) PlayerStatics.initial).2.shared_animations_ =
      LoadTextures first PlayerStatics.initial.shared_animations_ ∧
    (constructPlayers env (first :: later) PlayerStatics.initial).1.length = later.length + 1 ∧
    (∀ p ∈ (constructPlayers env (first :: later) PlayerStatics.initial).1,
      p.animations_ = LoadTextures first PlayerStatics.initial.shared_animations_) ∧
    (∀ (loadTexture : String → Option Nat) (s : PlayerStatics), s.textures_loaded_ = true →
      (Player.construct env loadTexture s).2 = s ∧
      (Player.construct env loadTexture s).1.animations_ = s.shared_animations_) := by
  obtain ⟨f1, f2⟩ := construct_first env first PlayerStatics.initial rfl
  have hloaded : (Player.construct env first PlayerStatics.initial).2.textures_loaded_ = true := by
    rw [f1]
  obtain ⟨r1, r2⟩ := constructPlayers_loaded env later _ hloaded
  have hlen : ∀ (ls : List (String → Option Nat)) (s : PlayerStatics),
      (constructPlayers env ls s).1.length = ls.length := by
    intro ls
    induction ls with
    | nil => intro s; rfl
    | cons l rest ih =>
      intro s
      simp only [constructPlayers, List.length_cons, ih]
  refine ⟨by rw [f1]; rfl, ?_, ?_, hlen _ _, ?_, fun l s hs => construct_loaded env l s hs⟩
  · simp only [constructPlayers]
    rw [r1, f1]
    rfl
  · simp only [constructPlayers]
    rw [r1, f1]
  · intro p hp
    simp only [constructPlayers] at hp
    rcases List.mem_cons.mp hp with hp | hp
    · rw [hp]
      exact f2
    · rw [r2 p hp, f1]

/-- Witness for C15: three constructions, the first with a loader that finds
every file, the second with one that finds none. -/
theorem load_textures_once_witness :
    (constructPlayers sampleEnv [fun _ => some 7, fun _ => none, fun _ => some 9]
      PlayerStatics.initial).2.loadTexturesCalls = 1 ∧
    ((Player.construct sampleEnv (fun _ => some 7) PlayerStatics.initial).2.textures_loaded_
        = true ∧
      (Player.construct sampleEnv (fun _ => none)
        (Player.construct sampleEnv (fun _ => some 7) PlayerStatics.initial).2).2 =
        (Player.construct sampleEnv (fun _ => some 7) PlayerStatics.initial).2) :=
  have h : (Player.construct sampleEnv (fun _ => some 7) PlayerStatics.initial).2.textures_loaded_
      = true := rfl
  ⟨(load_textures_once sampleEnv (fun _ => some 7) [fun _ => none, fun _ => some 9]).2.1,
   h,
   ((load_textures_once sampleEnv (fun _ => some 7) []).2.2.2.2.2 (fun _ => none) _ h).1⟩


/-! ## Position integration -/

/-- C19: for every collection and player state `PerformParry` never grows the
monster collection.  Either nothing changes; or the target stays, with one
health point less, and every other monster is as before; or the target is
erased, the other monsters keep their order, and at most one new monster is
appended.  A monster is appended only in the last case, and the kill counter
goes up by 1 exactly in that case. -/
theorem performParry_never_grows (env : Env) (x y : Int) (w : World) :
    (PerformParry env x y w).monsters.length ≤ w.monsters.length ∧
    (((PerformParry env x y w).monsters = w.monsters ∧
        (PerformParry env x y w).globals.g_kill_count = w.globals.g_kill_count) ∨
      (∃ (i : Nat) (t : Monster), w.monsters[i]? = some t ∧
        (PerformParry env x y w).monsters = w.monsters.set i { t with health := t.health - 1 } ∧
        (PerformParry env x y w).globals.g_kill_count = w.globals.g_kill_count) ∨
      (∃ (i : Nat) (t : Monster) (extra : List Monster),
        w.monsters[i]? = some t ∧ extra.length ≤ 1 ∧
        (PerformParry env x y w).monsters = w.monsters.eraseIdx i ++ extra ∧
        (PerformParry env x y w).globals.g_kill_count = w.globals.g_kill_count + 1)) := by
  by_cases ht : w.player.parry_timer_ ≤ 0
  · cases hfc : findClosest w.player w.monsters with
    | none =>
      have hw : PerformParry env x y w = w := by
        unfold PerformParry
        rw [if_pos ht, hfc]
      rw [hw]
      exact ⟨le_refl _, Or.inl ⟨rfl, rfl⟩⟩
    | some it =>
      obtain ⟨i, t⟩ := it
      have hi := findClosest_index_lt _ _ i t hfc
      have hget := (findClosest_some_spec _ _ i t hfc).1
      rw [performParry_eq_applyParry env x y w i t ht hfc]
      cases hd : env.IsDead { t with health := t.health - 1 }
      · obtain ⟨hm, hg⟩ := applyParry_monsters_alive env x y w i t hd
        rw [hm, hg]
        exact ⟨by simp, Or.inr (Or.inl ⟨i, t, hget, rfl, rfl⟩)⟩
      · obtain ⟨hm, hk⟩ := applyParry_monsters_dead env x y w i t hi hd
        have hlen : (w.monsters.eraseIdx i).length = w.monsters.length - 1 :=
          List.length_eraseIdx_of_lt hi
        rw [hm, hk]
        split_ifs
        · refine ⟨?_, Or.inr (Or.inr ⟨i, t, [MovingMonster env x y], hget, by simp, rfl, rfl⟩)⟩
          simp only [List.length_append, List.length_singleton, hlen]
          omega
        · refine ⟨?_, Or.inr (Or.inr ⟨i, t, [RangedMonster env x y], hget, by simp, rfl, rfl⟩)⟩
          simp only [List.length_append, List.length_singleton, hlen]
          omega
        · refine ⟨?_, Or.inr (Or.inr ⟨i, t, [], hget, by simp, by simp, rfl⟩)⟩
          omega
  · have hw : PerformParry env x y w = w := by
      unfold PerformParry
      rw [if_neg ht]
    rw [hw]
    exact ⟨le_refl _, Or.inl ⟨rfl, rfl⟩⟩


/-! ## The parry lockout -/

end GPFinal
